import Mathlib

/-! Webhook security server (`webhook-handlers/go/cmd/main.go`)

A shallow embedding of the security validation pipeline of the GitHub webhook
server: signature verification, header validation, origin allow-listing,
sensitive-content scanning, payload sanitization and the ordered request
handler, followed by the theorems that settle the specification's claims.

Conventions of the embedding:

* Go `string` and `[]byte` values are Lean `String`s; `len` of a body is its
  UTF-8 byte length.
* `map[string]interface{}` is an association list in insertion order, a JSON
  value is a `Node`.
* Functions of the Go standard library that the program calls but does not
  define (HMAC-SHA256, `net.ParseIP`, `net.ParseCIDR`, `IPNet.Contains`,
  `json.Unmarshal`) are fields of `Lib`, a parameter of the definitions that
  call them.
* The regular expressions of the source are values of `Regex`, interpreted by
  a backtracking matcher with Go's leftmost-first preference order.
-/

namespace Webhook

/-! ## Regular expressions -/

/-- The fragment of Go `regexp` syntax used by the program.  Repetition is only
ever applied to a character class in the source, so `many` and `few` take a
class. -/
inductive Regex where
  /-- the empty pattern -/
  | empty : Regex
  /-- one character of a class, e.g. `[0-9a-f]`, `.`, or a literal -/
  | set (p : Char → Bool) : Regex
  /-- concatenation `rs` -/
  | seq (r s : Regex) : Regex
  /-- alternation `r|s`, `r` preferred -/
  | alt (r s : Regex) : Regex
  /-- greedy repetition `[p]*` -/
  | many (p : Char → Bool) : Regex
  /-- lazy repetition `[p]*?` -/
  | few (p : Char → Bool) : Regex

namespace Regex

/-- Ends of the greedy repetition of a class: longest first. -/
def manyEnds (p : Char → Bool) : List Char → List (List Char)
  | [] => [[]]
  | c :: cs => if p c then manyEnds p cs ++ [c :: cs] else [c :: cs]

/-- Ends of the lazy repetition of a class: shortest first. -/
def fewEnds (p : Char → Bool) : List Char → List (List Char)
  | [] => [[]]
  | c :: cs => (c :: cs) :: (if p c then fewEnds p cs else [])

/-- All ways `r` can match a prefix of the input, each given by the input that
remains after the match, in the order a backtracking matcher tries them
(Go's leftmost-first preference). -/
def ends : Regex → List Char → List (List Char)
  | empty, s => [s]
  | set _, [] => []
  | set p, c :: cs => if p c then [cs] else []
  | seq r s, inp => (ends r inp).flatMap (ends s)
  | alt r s, inp => ends r inp ++ ends s inp
  | many p, inp => manyEnds p inp
  | few p, inp => fewEnds p inp

/-- Length of the preferred match of `r` at the start of the input. -/
def firstMatchLen (r : Regex) (s : List Char) : Option Nat :=
  (r.ends s).head?.map (fun rest => s.length - rest.length)

/-- A pattern written `^r$` (no `m` flag) matches only the whole text. -/
def fullMatch (r : Regex) (s : List Char) : Bool :=
  (r.ends s).any List.isEmpty

/-- An unanchored pattern matches when it matches at some position. -/
def search (r : Regex) : List Char → Bool
  | [] => !(r.ends []).isEmpty
  | c :: cs => !(r.ends (c :: cs)).isEmpty || search r cs

/-- Go `Regexp.ReplaceAllString(src, "")`: successive non-overlapping leftmost
matches are deleted.  The first argument counts the characters of the current
match still to be dropped.  An empty match deletes nothing and the scan moves
on by one character. -/
def removeAll (r : Regex) : Nat → List Char → List Char
  | _, [] => []
  | skip + 1, _ :: cs => removeAll r skip cs
  | 0, c :: cs =>
    match r.firstMatchLen (c :: cs) with
    | some (n + 1) => removeAll r n cs
    | _ => c :: removeAll r 0 cs

/-- A literal character. -/
def chr (a : Char) : Regex := set (fun c => c == a)

/-- A literal character under the `(?i)` flag.  Go folds case with
`unicode.SimpleFold`, whose orbits of `k` and `s` also hold U+212A (Kelvin
sign) and U+017F (long s). -/
def foldChr (a : Char) : Regex :=
  set (fun c => c.toLower == a.toLower
    || (a.toLower == 's' && c == Char.ofNat 0x17F)
    || (a.toLower == 'k' && c == Char.ofNat 0x212A))

/-- A literal string. -/
def lit (s : String) : Regex := s.toList.foldr (fun a r => seq (chr a) r) empty

/-- A literal string under the `(?i)` flag. -/
def foldLit (s : String) : Regex := s.toList.foldr (fun a r => seq (foldChr a) r) empty

/-- Counted repetition `[p]{n}`. -/
def times (p : Char → Bool) : Nat → Regex
  | 0 => empty
  | n + 1 => seq (set p) (times p n)

/-- One or more `[p]+` (greedy). -/
def some (p : Char → Bool) : Regex := seq (set p) (many p)

/-- Greedy option `r?`. -/
def opt (r : Regex) : Regex := alt r empty

end Regex

/-! ## Payload sanitizer -/

/-- The pattern `(?i)<script[^>]*>.*?</script>`; `.` does not match a line feed. -/
def scriptBlockRe : Regex :=
  .seq (.foldLit "<script") (.seq (.many (fun c => c != '>')) (.seq (.chr '>')
    (.seq (.few (fun c => c != '\n')) (.foldLit "</script>"))))

/-- The pattern `<[^>]*>`. -/
def tagRe : Regex :=
  .seq (.chr '<') (.seq (.many (fun c => c != '>')) (.chr '>'))

/-- The pattern `(?i)javascript:`. -/
def javascriptRe : Regex := .foldLit "javascript:"

/-- The class `[\x00-\x08\x0B\x0C\x0E-\x1F\x7F]`. -/
def isControl (c : Char) : Bool :=
  c.toNat ≤ 0x08 || c.toNat == 0x0B || c.toNat == 0x0C
    || (0x0E ≤ c.toNat && c.toNat ≤ 0x1F) || c.toNat == 0x7F

/-- The pattern `[\x00-\x08\x0B\x0C\x0E-\x1F\x7F]`. -/
def controlRe : Regex := .set isControl

/-- Go `unicode.IsSpace`. -/
def isSpace (c : Char) : Bool :=
  (0x09 ≤ c.toNat && c.toNat ≤ 0x0D) || c.toNat == 0x20 || c.toNat == 0x85
    || c.toNat == 0xA0 || c.toNat == 0x1680
    || (0x2000 ≤ c.toNat && c.toNat ≤ 0x200A)
    || c.toNat == 0x2028 || c.toNat == 0x2029 || c.toNat == 0x202F
    || c.toNat == 0x205F || c.toNat == 0x3000

/-- Go `strings.TrimSpace` on a list of characters. -/
def trimSpace (s : List Char) : List Char :=
  ((s.dropWhile isSpace).reverse.dropWhile isSpace).reverse

/-- The body of `sanitizeString` on a list of characters: the four
replacements in the order of the source, then `strings.TrimSpace`. -/
def sanitizeChars (input : List Char) : List Char :=
  let sanitized := input
  let sanitized := scriptBlockRe.removeAll 0 sanitized
  let sanitized := tagRe.removeAll 0 sanitized
  let sanitized := javascriptRe.removeAll 0 sanitized
  let sanitized := controlRe.removeAll 0 sanitized
  trimSpace sanitized

/-- `WebhookSecurityValidator.sanitizeString`. -/
def sanitizeString (input : String) : String :=
  String.mk (sanitizeChars input.toList)

/-- A leaf that `json.Unmarshal` produces and that is neither a string, a map
nor a slice: `nil`, a `bool` or a `float64` (kept as its 64-bit pattern). -/
inductive Scalar where
  | null : Scalar
  | bool (b : Bool) : Scalar
  | number (bits : Nat) : Scalar
  deriving DecidableEq, Repr

/-- A value of type `interface{}` as produced by `json.Unmarshal`. -/
inductive Node where
  | str (s : String) : Node
  | obj (fields : List (String × Node)) : Node
  | arr (items : List Node) : Node
  | other (v : Scalar) : Node

mutual
/-- `WebhookSecurityValidator.SanitizePayload`: every entry of the map is
rebuilt under the same key. -/
def SanitizePayload : List (String × Node) → List (String × Node)
  | [] => []
  | (key, .str s) :: rest => (key, .str (sanitizeString s)) :: SanitizePayload rest
  | (key, .obj m) :: rest => (key, .obj (SanitizePayload m)) :: SanitizePayload rest
  | (key, .arr a) :: rest => (key, .arr (sanitizeArray a)) :: SanitizePayload rest
  | (key, .other v) :: rest => (key, .other v) :: SanitizePayload rest
/-- `WebhookSecurityValidator.sanitizeArray`: every element of the slice is
rebuilt at the same index. -/
def sanitizeArray : List Node → List Node
  | [] => []
  | .str s :: rest => .str (sanitizeString s) :: sanitizeArray rest
  | .obj m :: rest => .obj (SanitizePayload m) :: sanitizeArray rest
  | .arr a :: rest => .arr (sanitizeArray a) :: sanitizeArray rest
  | .other v :: rest => .other v :: sanitizeArray rest
end

/-! ## Library boundary -/

/-- A Go `net.IP`: the bytes of the address. -/
abbrev IP := List Nat

/-- A Go `net.IPNet`: network number and mask. -/
structure IPNet where
  ip : List Nat
  mask : List Nat
  deriving DecidableEq, Repr

/-- The functions of the Go standard library that the program calls. -/
structure Lib where
  /-- `hmac.New(sha256.New, key)`, `Write(message)`, `Sum(nil)`: the 32 digest bytes -/
  hmacSHA256 : String → String → List Nat
  /-- `net.ParseIP`; `none` is the nil address -/
  parseIP : String → Option IP
  /-- `net.ParseCIDR`; `none` when it returns an error -/
  parseCIDR : String → Option IPNet
  /-- `(*net.IPNet).Contains` -/
  contains : IPNet → IP → Bool
  /-- `json.Unmarshal` into a `map[string]interface{}` -/
  jsonUnmarshal : String → Except String (List (String × Node))
  /-- `strings.ToLower` -/
  toLower : String → String

/-- One lower-case hexadecimal digit, as written by `hex.EncodeToString`. -/
def hexDigit (n : Nat) : Char :=
  "0123456789abcdef".toList.getD n '0'

/-- `hex.EncodeToString`: two lower-case digits per byte, high nibble first. -/
def hexEncodeToString (bytes : List Nat) : String :=
  String.mk (bytes.flatMap (fun b => [hexDigit (b / 16 % 16), hexDigit (b % 16)]))

/-! ## Security validator -/

/-- The fields of `SecurityConfig` read by the validator and the handler. -/
structure SecurityConfig where
  WebhookSecret : String
  AllowedIPs : List String
  MaxPayloadSizeMB : Int
  IPValidationStrict : Bool
  EnableSignatureVerify : Bool

/-- `WebhookSecurityValidator` (the logger is part of the effects). -/
structure WebhookSecurityValidator where
  config : SecurityConfig
  allowedNetworks : List IPNet
  sensitivePatterns : List Regex

/-- The class `\s` of Go regular expressions: `[\t\n\f\r ]`. -/
def reSpace (c : Char) : Bool :=
  c == '\t' || c == '\n' || c == Char.ofNat 0x0C || c == '\r' || c == ' '

/-- The class `[0-9]`, written `\d`. -/
def reDigit (c : Char) : Bool := '0' ≤ c && c ≤ '9'

/-- The class `[a-f0-9]`. -/
def reHexLower (c : Char) : Bool := ('a' ≤ c && c ≤ 'f') || ('0' ≤ c && c ≤ '9')

/-- The tail `\s*[=:]\s*["']([^"']+)["']` shared by the assignment patterns. -/
def assignedQuotedRe : Regex :=
  .seq (.many reSpace) (.seq (.set (fun c => c == '=' || c == ':')) (.seq (.many reSpace)
    (.seq (.set (fun c => c == '"' || c == '\''))
      (.seq (.some (fun c => !(c == '"' || c == '\'')))
        (.set (fun c => c == '"' || c == '\''))))))

/-- The class `[A-Z ]` under `(?i)`: both letter cases and the two characters
that fold to `S` and `K`. -/
def foldUpperOrSpace (c : Char) : Bool :=
  ('A' ≤ c && c ≤ 'Z') || ('a' ≤ c && c ≤ 'z') || c == ' '
    || c == Char.ofNat 0x17F || c == Char.ofNat 0x212A

/-- The class `[0-9a-z]` under `(?i)`. -/
def foldAlnum (c : Char) : Bool :=
  ('0' ≤ c && c ≤ '9') || ('A' ≤ c && c ≤ 'Z') || ('a' ≤ c && c ≤ 'z')
    || c == Char.ofNat 0x17F || c == Char.ofNat 0x212A

/-- The seven sensitive-data patterns of `NewWebhookSecurityValidator`, in the
order of the source. -/
def sensitivePatternList : List Regex :=
  [ .seq (.foldLit "password") assignedQuotedRe,
    .seq (.foldLit "api") (.seq (.opt (.set (fun c => c == '_' || c == '-')))
      (.seq (.foldLit "key") assignedQuotedRe)),
    .seq (.foldLit "secret") assignedQuotedRe,
    .seq (.foldLit "token") assignedQuotedRe,
    .seq (.foldLit "-----BEGIN ") (.seq (.some foldUpperOrSpace) (.foldLit "PRIVATE KEY-----")),
    .seq (.foldLit "akia") (.times foldAlnum 16),
    .seq (.times reDigit 3) (.seq (.opt (.chr '-')) (.seq (.times reDigit 4)
      (.seq (.opt (.chr '-')) (.times reDigit 4)))) ]

/-- The address ranges of GitHub listed in `NewWebhookSecurityValidator`. -/
def githubIPRanges : List String :=
  [ "140.82.112.0/20", "143.55.64.0/20", "185.199.108.0/22", "192.30.252.0/22",
    "20.201.28.151/32", "20.205.243.166/32" ]

/-- `NewWebhookSecurityValidator`: ranges that `net.ParseCIDR` rejects are
skipped; all seven patterns compile. -/
def NewWebhookSecurityValidator (lib : Lib) (config : SecurityConfig) :
    WebhookSecurityValidator :=
  let allIPRanges := githubIPRanges ++ config.AllowedIPs
  { config := config
    allowedNetworks := allIPRanges.filterMap lib.parseCIDR
    sensitivePatterns := sensitivePatternList }

/-- `WebhookSecurityValidator.VerifySignature`.  `hmac.Equal` is equality of
the two byte strings. -/
def VerifySignature (lib : Lib) (v : WebhookSecurityValidator) (payload : String)
    (signature : String) : Bool :=
  if !("sha256=".toList).isPrefixOf signature.toList then
    false
  else
    let expectedSignature :=
      "sha256=" ++ hexEncodeToString (lib.hmacSHA256 v.config.WebhookSecret payload)
    decide (signature = expectedSignature)

/-- `WebhookSecurityValidator.VerifyIPAddress`. -/
def VerifyIPAddress (lib : Lib) (v : WebhookSecurityValidator) (clientIP : String) : Bool :=
  if !v.config.IPValidationStrict && (clientIP == "127.0.0.1" || clientIP == "::1") then
    true
  else
    match lib.parseIP clientIP with
    | none => false
    | some ip => v.allowedNetworks.any (fun network => lib.contains network ip)

/-- The pattern `^[0-9a-f]{8}-[0-9a-f]{4}-[0-9a-f]{4}-[0-9a-f]{4}-[0-9a-f]{12}$`
without its anchors. -/
def deliveryRe : Regex :=
  .seq (.times reHexLower 8) (.seq (.chr '-') (.seq (.times reHexLower 4) (.seq (.chr '-')
    (.seq (.times reHexLower 4) (.seq (.chr '-') (.seq (.times reHexLower 4) (.seq (.chr '-')
      (.times reHexLower 12))))))))

/-- The pattern `^sha256=[a-f0-9]{64}$` without its anchors. -/
def signatureRe : Regex := .seq (.lit "sha256=") (.times reHexLower 64)

/-- The pattern `^GitHub-Hookshot/[a-f0-9]+$` without its anchors. -/
def userAgentRe : Regex := .seq (.lit "GitHub-Hookshot/") (.some reHexLower)

/-- The header names that `ValidateHeaders` requires, in the order tested. -/
def requiredHeaders : List String :=
  ["X-Github-Delivery", "X-Github-Event", "X-Hub-Signature-256", "User-Agent"]

/-- `WebhookSecurityValidator.ValidateHeaders`; `none` is the nil error. -/
def ValidateHeaders (headers : List (String × String)) : Option String :=
  match requiredHeaders.find? (fun header => (headers.lookup header).isNone) with
  | some header => some ("missing required header: " ++ header)
  | none =>
    let deliveryID := (headers.lookup "X-Github-Delivery").getD ""
    if !deliveryRe.fullMatch deliveryID.toList then
      some "invalid X-Github-Delivery format"
    else
      let signature := (headers.lookup "X-Hub-Signature-256").getD ""
      if !signatureRe.fullMatch signature.toList then
        some "invalid X-Hub-Signature-256 format"
      else
        let userAgent := (headers.lookup "User-Agent").getD ""
        if !userAgentRe.fullMatch userAgent.toList then
          some "invalid User-Agent format"
        else
          none

/-- The loop of `DetectSensitiveData` from index `i` on. -/
def detectFrom (content : String) : Nat → List Regex → List String
  | _, [] => []
  | i, pattern :: rest =>
    if pattern.search content.toList then
      ("pattern_" ++ toString (i + 1)) :: detectFrom content (i + 1) rest
    else
      detectFrom content (i + 1) rest

/-- `WebhookSecurityValidator.DetectSensitiveData`. -/
def DetectSensitiveData (v : WebhookSecurityValidator) (content : String) : List String :=
  detectFrom content 0 v.sensitivePatterns

/-! ## Effects and responses -/

/-- The functions whose invocation the handler's trace records. -/
inductive Call where
  | ValidateHeaders | VerifySignature | VerifyIPAddress | jsonUnmarshal
  | DetectSensitiveData | SanitizePayload | processWebhookEvent
  deriving DecidableEq, Repr

/-- Side effects of a request, in program order.  Log entries are kept with
level and message, counters with their label values. -/
inductive Effect where
  | log (level message : String)
  /-- `webhookErrorsTotal.WithLabelValues(errorType, eventType).Inc()` -/
  | errorsTotal (errorType eventType : String)
  /-- `webhookSecurityEventsTotal.WithLabelValues(category, severity).Inc()` -/
  | securityEventsTotal (category severity : String)
  /-- `webhookRequestsTotal.WithLabelValues(eventType, status, repository).Inc()` -/
  | requestsTotal (eventType status repository : String)
  /-- `webhookProcessingDuration.WithLabelValues(eventType, status).Observe(..)` -/
  | processingDuration (eventType status : String)
  | call (f : Call)
  deriving DecidableEq, Repr

/-- `ErrorResponse`. -/
structure ErrorResponse where
  Error : String
  Message : String
  Details : String := ""
  Timestamp : Nat
  RequestID : String
  deriving DecidableEq, Repr

/-- The `metadata` object of a success response. -/
structure Metadata where
  repository : String
  sender : String
  security_checks_passed : Bool
  sensitive_data_detected : Bool
  deriving DecidableEq, Repr

/-- `WebhookResponse`. -/
structure WebhookResponse where
  Status : String
  DeliveryID : String
  EventType : String
  ProcessingTimeMs : Int
  Timestamp : Nat
  Metadata : Metadata
  deriving DecidableEq, Repr

/-- The JSON document written by `c.JSON`. -/
inductive Body where
  | error (e : ErrorResponse)
  | success (r : WebhookResponse)
  deriving DecidableEq, Repr

/-- What one run of the handler does: its effects and the reply of `c.JSON`. -/
structure Result where
  effects : List Effect
  status : Nat
  body : Body
  deriving DecidableEq, Repr

/-- The error code of a reply, `none` for a success reply. -/
def Result.errorCode (r : Result) : Option String :=
  match r.body with
  | .error e => some e.Error
  | .success _ => none

/-- Whether the run called `processWebhookEvent`. -/
def Result.dispatched (r : Result) : Bool :=
  r.effects.contains (.call .processWebhookEvent)

/-- Whether the run called the given validator function. -/
def Result.invoked (r : Result) (f : Call) : Bool :=
  r.effects.contains (.call f)

/-! ## Event dispatch -/

/-- `getRepositoryName`. -/
def getRepositoryName (payload : List (String × Node)) : String :=
  match payload.lookup "repository" with
  | some (.obj repo) =>
    match repo.lookup "full_name" with
    | some (.str name) => name
    | _ => "unknown"
  | _ => "unknown"

/-- `getSenderName`. -/
def getSenderName (payload : List (String × Node)) : String :=
  match payload.lookup "sender" with
  | some (.obj sender) =>
    match sender.lookup "login" with
    | some (.str login) => login
    | _ => "unknown"
  | _ => "unknown"

/-- `interfaceSliceToStringSlice`: an element that is not a string leaves the
zero value `""` at its index. -/
def interfaceSliceToStringSlice (input : List Node) : List String :=
  input.map (fun v => match v with
    | .str str => str
    | _ => "")

/-- `strings.Contains`. -/
def stringsContains (s substr : String) : Bool :=
  decide (substr.toList <:+: s.toList)

/-- The keyword list of `containsSensitiveData`. -/
def sensitiveKeywords : List String :=
  ["password", "secret", "key", "token", "credential",
   "aws_access_key", "api_key", "private_key"]

/-- The file-name fragments of `containsSensitiveData`. -/
def sensitiveFiles : List String := [".env", "credentials", "secrets", "private_key"]

/-- `Application.containsSensitiveData`. -/
def containsSensitiveData (lib : Lib) (commit : List (String × Node)) : Bool :=
  let message := match commit.lookup "message" with
    | some (.str m) => m
    | _ => ""
  let added := match commit.lookup "added" with
    | some (.arr a) => a
    | _ => []
  let modified := match commit.lookup "modified" with
    | some (.arr a) => a
    | _ => []
  let messageLower := lib.toLower message
  if sensitiveKeywords.any (fun keyword => stringsContains messageLower keyword) then
    true
  else
    let allFiles := interfaceSliceToStringSlice added ++ interfaceSliceToStringSlice modified
    allFiles.any (fun file =>
      sensitiveFiles.any (fun sensitive => stringsContains (lib.toLower file) sensitive))

/-- `Application.handlePushEvent`: its log entries and its error (`none` is nil). -/
def handlePushEvent (lib : Lib) (payload : List (String × Node)) :
    List Effect × Option String :=
  let commits := match payload.lookup "commits" with
    | some (.arr cs) => cs
    | _ => []
  let found := commits.flatMap (fun commit => match commit with
    | .obj commitMap =>
      if containsSensitiveData lib commitMap then
        [Effect.log "critical" "Sensitive data detected in commit"]
      else []
    | _ => [])
  (Effect.log "info" "Processing push event" :: found, none)

/-- `Application.handlePullRequestEvent`. -/
def handlePullRequestEvent (_payload : List (String × Node)) : List Effect × Option String :=
  ([.log "info" "Processing pull request event"], none)

/-- `Application.handleSecretScanningEvent`. -/
def handleSecretScanningEvent (_payload : List (String × Node)) :
    List Effect × Option String :=
  ([.log "critical" "Secret scanning alert received"], none)

/-- `Application.handleCodeScanningEvent`. -/
def handleCodeScanningEvent (_payload : List (String × Node)) : List Effect × Option String :=
  ([.log "warning" "Code scanning alert received"], none)

/-- `Application.handleDependabotEvent`. -/
def handleDependabotEvent (_payload : List (String × Node)) : List Effect × Option String :=
  ([.log "warning" "Dependabot alert received"], none)

/-- `Application.processWebhookEvent`. -/
def processWebhookEvent (lib : Lib) (eventType : String) (payload : List (String × Node)) :
    List Effect × Option String :=
  if eventType = "push" then handlePushEvent lib payload
  else if eventType = "pull_request" then handlePullRequestEvent payload
  else if eventType = "secret_scanning_alert" then handleSecretScanningEvent payload
  else if eventType = "code_scanning_alert" then handleCodeScanningEvent payload
  else if eventType = "dependabot_alert" then handleDependabotEvent payload
  else ([.log "info" "Unhandled event type"], none)

/-! ## Request handler -/

/-- The fields of `Config` read by the handler. -/
structure Config where
  Security : SecurityConfig

/-- `Application`. -/
structure Application where
  config : Config
  validator : WebhookSecurityValidator

/-- `NewApplication`. -/
def NewApplication (lib : Lib) (config : Config) : Application :=
  { config := config, validator := NewWebhookSecurityValidator lib config.Security }

/-- What the handler reads from `gin.Context` and from the clock. -/
structure Request where
  /-- `c.Request.Header`: canonical header name to its values -/
  Header : List (String × List String)
  /-- the result of `io.ReadAll(c.Request.Body)` -/
  Body : Except String String
  /-- `c.ClientIP()` -/
  ClientIP : String
  /-- `c.Get("request_id")` -/
  RequestID : String
  /-- `time.Now()` when the reply is built -/
  Now : Nat
  /-- `time.Since(startTime).Milliseconds()` -/
  ElapsedMs : Int

/-- `c.GetHeader(key)` for a key in canonical form: the first value, or `""`. -/
def Request.GetHeader (c : Request) (key : String) : String :=
  match c.Header.lookup key with
  | some (value :: _) => value
  | _ => ""

/-- The `headers` map built at the start of the handler: the first value of
every header that has one. -/
def Request.headers (c : Request) : List (String × String) :=
  c.Header.filterMap (fun kv => match kv.2 with
    | value :: _ => some (kv.1, value)
    | [] => none)

/-- Go `int` arithmetic: the 64-bit two's-complement value of an integer. -/
def wrapInt64 (x : Int) : Int := (x + 2 ^ 63) % 2 ^ 64 - 2 ^ 63

/-- The expression `app.config.Security.MaxPayloadSizeMB * 1024 * 1024`. -/
def maxSize (app : Application) : Int :=
  wrapInt64 (wrapInt64 (app.config.Security.MaxPayloadSizeMB * 1024) * 1024)

/-- A rejection: the effects so far, then `c.JSON(status, ErrorResponse{..})`. -/
def reject (c : Request) (effects : List Effect) (status : Nat) (error message details : String) :
    Result :=
  { effects := effects
    status := status
    body := .error { Error := error, Message := message, Details := details,
                     Timestamp := c.Now, RequestID := c.RequestID } }

/-- `Application.webhookHandler`.  `GetHeader` canonicalises its argument, so
`X-GitHub-Delivery` reads the entry `X-Github-Delivery`. -/
def webhookHandler (lib : Lib) (app : Application) (c : Request) : Result :=
  let headers := c.headers
  let deliveryID := c.GetHeader "X-Github-Delivery"
  let eventType := c.GetHeader "X-Github-Event"
  let signature := c.GetHeader "X-Hub-Signature-256"
  let clientIP := c.ClientIP
  if deliveryID = "" ∨ eventType = "" ∨ signature = "" then
    reject c [.log "error" "Missing required headers", .errorsTotal "missing_headers" eventType]
      400 "MISSING_HEADERS" "Required headers are missing" ""
  else
  match c.Body with
  | .error _ =>
    reject c [.log "error" "Failed to read request body",
        .errorsTotal "read_body_error" eventType]
      400 "INVALID_PAYLOAD" "Failed to read request body" ""
  | .ok rawBody =>
  if (rawBody.utf8ByteSize : Int) > maxSize app then
    reject c [.log "error" ("Payload size exceeded: " ++ toString rawBody.utf8ByteSize ++ " bytes"),
        .errorsTotal "payload_too_large" eventType]
      413 "PAYLOAD_TOO_LARGE"
      ("Payload size exceeded " ++ toString app.config.Security.MaxPayloadSizeMB ++ "MB limit") ""
  else
  let t := [Effect.call .ValidateHeaders]
  match ValidateHeaders headers with
  | some err =>
    reject c (t ++ [.log "error" "Header validation failed",
        .errorsTotal "invalid_headers" eventType])
      400 "INVALID_HEADERS" "Header validation failed" err
  | none =>
  let t := if app.config.Security.EnableSignatureVerify then t ++ [.call .VerifySignature] else t
  if app.config.Security.EnableSignatureVerify
      && !VerifySignature lib app.validator rawBody signature then
    reject c (t ++ [.log "error" "Signature verification failed",
        .securityEventsTotal "signature_verification_failed" "high",
        .errorsTotal "invalid_signature" eventType])
      401 "INVALID_SIGNATURE" "Webhook signature verification failed" ""
  else
  let t := t ++ [.call .VerifyIPAddress]
  if !VerifyIPAddress lib app.validator clientIP then
    reject c (t ++ [.log "error" "Unauthorized IP access",
        .securityEventsTotal "unauthorized_ip" "critical",
        .errorsTotal "forbidden_ip" eventType])
      403 "FORBIDDEN_IP" "Access denied: IP not allowed" ""
  else
  let t := t ++ [.call .jsonUnmarshal]
  match lib.jsonUnmarshal rawBody with
  | .error err =>
    reject c (t ++ [.log "error" "JSON parsing failed",
        .errorsTotal "json_parse_error" eventType])
      400 "INVALID_PAYLOAD" "Invalid JSON payload" err
  | .ok payload =>
  let sensitivePatterns := DetectSensitiveData app.validator rawBody
  let t := t ++ [.call .DetectSensitiveData]
  let t := if sensitivePatterns.length > 0 then
      t ++ [.log "warning" "Sensitive data detected",
        .securityEventsTotal "sensitive_data_detected" "critical"]
    else t
  let sanitizedPayload := SanitizePayload payload
  let t := t ++ [.call .SanitizePayload]
  let processed := processWebhookEvent lib eventType sanitizedPayload
  let t := t ++ [.call .processWebhookEvent] ++ processed.1
  match processed.2 with
  | some err =>
    reject c (t ++ [.log "error" "Event processing failed",
        .errorsTotal "processing_error" eventType])
      500 "PROCESSING_ERROR" "Event processing failed" err
  | none =>
  { effects := t ++ [.requestsTotal eventType "success" (getRepositoryName sanitizedPayload),
        .processingDuration eventType "success",
        .log "info" "Webhook processed successfully"]
    status := 200
    body := .success
      { Status := "success"
        DeliveryID := deliveryID
        EventType := eventType
        ProcessingTimeMs := c.ElapsedMs
        Timestamp := c.Now
        Metadata :=
          { repository := getRepositoryName sanitizedPayload
            sender := getSenderName sanitizedPayload
            security_checks_passed := true
            sensitive_data_detected := decide (sensitivePatterns.length > 0) } } }

/-- The validator calls recorded up to and including the signature stage. -/
def sigTrace (app : Application) : List Effect :=
  if app.config.Security.EnableSignatureVerify then
    [.call .ValidateHeaders, .call .VerifySignature]
  else [.call .ValidateHeaders]

/-- The effects of the scanning stage. -/
def scanTrace (app : Application) (rawBody : String) : List Effect :=
  if (DetectSensitiveData app.validator rawBody).length > 0 then
    [.call .DetectSensitiveData, .log "warning" "Sensitive data detected",
      .securityEventsTotal "sensitive_data_detected" "critical"]
  else [.call .DetectSensitiveData]

/-- `Application.webhookHandler` with the event processor it calls taken as a
parameter: the same text, `dispatch` standing for `app.processWebhookEvent`.
It serves to say what the handler does when the processor returns an error. -/
def webhookHandlerWith (lib : Lib)
    (dispatch : String → List (String × Node) → List Effect × Option String)
    (app : Application) (c : Request) : Result :=
  let headers := c.headers
  let deliveryID := c.GetHeader "X-Github-Delivery"
  let eventType := c.GetHeader "X-Github-Event"
  let signature := c.GetHeader "X-Hub-Signature-256"
  let clientIP := c.ClientIP
  if deliveryID = "" ∨ eventType = "" ∨ signature = "" then
    reject c [.log "error" "Missing required headers", .errorsTotal "missing_headers" eventType]
      400 "MISSING_HEADERS" "Required headers are missing" ""
  else
  match c.Body with
  | .error _ =>
    reject c [.log "error" "Failed to read request body",
        .errorsTotal "read_body_error" eventType]
      400 "INVALID_PAYLOAD" "Failed to read request body" ""
  | .ok rawBody =>
  if (rawBody.utf8ByteSize : Int) > maxSize app then
    reject c [.log "error" ("Payload size exceeded: " ++ toString rawBody.utf8ByteSize ++ " bytes"),
        .errorsTotal "payload_too_large" eventType]
      413 "PAYLOAD_TOO_LARGE"
      ("Payload size exceeded " ++ toString app.config.Security.MaxPayloadSizeMB ++ "MB limit") ""
  else
  let t := [Effect.call .ValidateHeaders]
  match ValidateHeaders headers with
  | some err =>
    reject c (t ++ [.log "error" "Header validation failed",
        .errorsTotal "invalid_headers" eventType])
      400 "INVALID_HEADERS" "Header validation failed" err
  | none =>
  let t := if app.config.Security.EnableSignatureVerify then t ++ [.call .VerifySignature] else t
  if app.config.Security.EnableSignatureVerify
      && !VerifySignature lib app.validator rawBody signature then
    reject c (t ++ [.log "error" "Signature verification failed",
        .securityEventsTotal "signature_verification_failed" "high",
        .errorsTotal "invalid_signature" eventType])
      401 "INVALID_SIGNATURE" "Webhook signature verification failed" ""
  else
  let t := t ++ [.call .VerifyIPAddress]
  if !VerifyIPAddress lib app.validator clientIP then
    reject c (t ++ [.log "error" "Unauthorized IP access",
        .securityEventsTotal "unauthorized_ip" "critical",
        .errorsTotal "forbidden_ip" eventType])
      403 "FORBIDDEN_IP" "Access denied: IP not allowed" ""
  else
  let t := t ++ [.call .jsonUnmarshal]
  match lib.jsonUnmarshal rawBody with
  | .error err =>
    reject c (t ++ [.log "error" "JSON parsing failed",
        .errorsTotal "json_parse_error" eventType])
      400 "INVALID_PAYLOAD" "Invalid JSON payload" err
  | .ok payload =>
  let sensitivePatterns := DetectSensitiveData app.validator rawBody
  let t := t ++ [.call .DetectSensitiveData]
  let t := if sensitivePatterns.length > 0 then
      t ++ [.log "warning" "Sensitive data detected",
        .securityEventsTotal "sensitive_data_detected" "critical"]
    else t
  let sanitizedPayload := SanitizePayload payload
  let t := t ++ [.call .SanitizePayload]
  let processed := dispatch eventType sanitizedPayload
  let t := t ++ [.call .processWebhookEvent] ++ processed.1
  match processed.2 with
  | some err =>
    reject c (t ++ [.log "error" "Event processing failed",
        .errorsTotal "processing_error" eventType])
      500 "PROCESSING_ERROR" "Event processing failed" err
  | none =>
  { effects := t ++ [.requestsTotal eventType "success" (getRepositoryName sanitizedPayload),
        .processingDuration eventType "success",
        .log "info" "Webhook processed successfully"]
    status := 200
    body := .success
      { Status := "success"
        DeliveryID := deliveryID
        EventType := eventType
        ProcessingTimeMs := c.ElapsedMs
        Timestamp := c.Now
        Metadata :=
          { repository := getRepositoryName sanitizedPayload
            sender := getSenderName sanitizedPayload
            security_checks_passed := true
            sensitive_data_detected := decide (sensitivePatterns.length > 0) } } }

/-! ## Specification vocabulary -/

/-- The words a pattern accepts (its language), independent of any matching
order: the reference against which `Regex.ends` is proved. -/
def Regex.Accepts : Regex → List Char → Prop
  | .empty, w => w = []
  | .set p, w => ∃ c, w = [c] ∧ p c = true
  | .seq r s, w => ∃ u v, w = u ++ v ∧ r.Accepts u ∧ s.Accepts v
  | .alt r s, w => r.Accepts w ∨ s.Accepts w
  | .many p, w => ∀ c ∈ w, p c = true
  | .few p, w => ∀ c ∈ w, p c = true

/-- A word of lower-case hexadecimal digits, the class `[0-9a-f]`. -/
def IsLowerHex (w : List Char) : Prop := ∀ c ∈ w, reHexLower c = true

/-- A canonical 8-4-4-4-12 lower-case hexadecimal UUID. -/
def IsCanonicalUUID (w : List Char) : Prop :=
  ∃ a b c d e, w = a ++ '-' :: (b ++ '-' :: (c ++ '-' :: (d ++ '-' :: e)))
    ∧ a.length = 8 ∧ b.length = 4 ∧ c.length = 4 ∧ d.length = 4 ∧ e.length = 12
    ∧ IsLowerHex a ∧ IsLowerHex b ∧ IsLowerHex c ∧ IsLowerHex d ∧ IsLowerHex e

/-- The text `sha256=` followed by exactly 64 lower-case hexadecimal digits. -/
def IsSha256Signature (w : List Char) : Prop :=
  ∃ h, w = "sha256=".toList ++ h ∧ h.length = 64 ∧ IsLowerHex h

/-- The text `GitHub-Hookshot/` followed by one or more lower-case hexadecimal
digits. -/
def IsHookshotAgent (w : List Char) : Prop :=
  ∃ h, w = "GitHub-Hookshot/".toList ++ h ∧ h ≠ [] ∧ IsLowerHex h

mutual
/-- Two maps with the same keys in the same positions and values of the same
shape. -/
def SameShapeFields : List (String × Node) → List (String × Node) → Prop
  | [], [] => True
  | (k, v) :: rest, (k', v') :: rest' => k = k' ∧ SameShape v v' ∧ SameShapeFields rest rest'
  | _, _ => False
/-- Two trees of the same shape: the same kind of node everywhere, the same
keys, the same lengths, equal non-string leaves; string leaves are free. -/
def SameShape : Node → Node → Prop
  | .str _, .str _ => True
  | .obj m, .obj m' => SameShapeFields m m'
  | .arr a, .arr a' => SameShapeItems a a'
  | .other v, .other v' => v = v'
  | _, _ => False
/-- Two sequences of the same length with elements of the same shape. -/
def SameShapeItems : List Node → List Node → Prop
  | [], [] => True
  | x :: rest, x' :: rest' => SameShape x x' ∧ SameShapeItems rest rest'
  | _, _ => False
end

/-- Every match of the pattern consumes at least one character. -/
def Regex.NonEmptyMatches (r : Regex) : Prop :=
  ∀ s rest, rest ∈ r.ends s → rest.length < s.length

/-- No `<` of the text is followed, anywhere later, by a `>`: the text holds no
match of `<[^>]*>`. -/
def NoTag (l : List Char) : Prop := l.Pairwise (fun a b => ¬(a = '<' ∧ b = '>'))

mutual
/-- Whether every string leaf below a map satisfies `p`. -/
def allStringsFields (p : String → Bool) : List (String × Node) → Bool
  | [] => true
  | (_, .str s) :: rest => p s && allStringsFields p rest
  | (_, .obj m) :: rest => allStringsFields p m && allStringsFields p rest
  | (_, .arr a) :: rest => allStringsItems p a && allStringsFields p rest
  | (_, .other _) :: rest => allStringsFields p rest
/-- Whether every string leaf below a slice satisfies `p`. -/
def allStringsItems (p : String → Bool) : List Node → Bool
  | [] => true
  | .str s :: rest => p s && allStringsItems p rest
  | .obj m :: rest => allStringsFields p m && allStringsItems p rest
  | .arr a :: rest => allStringsItems p a && allStringsItems p rest
  | .other _ :: rest => allStringsItems p rest
end

/-- Whether a string holds no match of `(?i)javascript:`. -/
def javascriptFree (s : String) : Bool := !javascriptRe.search s.toList

/-- The identifier that `DetectSensitiveData` reports for the pattern at the
1-based position `k`: `fmt.Sprintf("pattern_%d", k)`. -/
def patternLabel (k : Nat) : String := "pattern_" ++ toString k

/-- The message that `containsSensitiveData` reads: the `message` entry when it
is a string, else `""`. -/
def commitMessage (commit : List (String × Node)) : String :=
  match commit.lookup "message" with
  | some (.str m) => m
  | _ => ""

/-- The slice that `containsSensitiveData` reads under a key: the entry when it
is a slice, else empty. -/
def commitList (commit : List (String × Node)) (key : String) : List Node :=
  match commit.lookup key with
  | some (.arr a) => a
  | _ => []

/-- The checks of `webhookHandler`, named in the order in which it makes them. -/
inductive Check where
  | headersPresent | bodyRead | bodySize | headerFormat | signature | origin | jsonParse
  deriving DecidableEq, Repr

/-- The order in which `webhookHandler` makes its checks. -/
def checkOrder : List Check :=
  [.headersPresent, .bodyRead, .bodySize, .headerFormat, .signature, .origin, .jsonParse]

/-- Whether a check, taken alone, fails on a request.  The checks on the body
need the body to have been read; the signature check is made only when
`EnableSignatureVerify` is set. -/
def Check.fails (lib : Lib) (app : Application) (c : Request) : Check → Bool
  | .headersPresent =>
    c.GetHeader "X-Github-Delivery" == "" || c.GetHeader "X-Github-Event" == ""
      || c.GetHeader "X-Hub-Signature-256" == ""
  | .bodyRead =>
    match c.Body with
    | .error _ => true
    | .ok _ => false
  | .bodySize =>
    match c.Body with
    | .ok rawBody => decide ((rawBody.utf8ByteSize : Int) > maxSize app)
    | .error _ => false
  | .headerFormat => (ValidateHeaders c.headers).isSome
  | .signature =>
    match c.Body with
    | .ok rawBody =>
      app.config.Security.EnableSignatureVerify
        && !VerifySignature lib app.validator rawBody (c.GetHeader "X-Hub-Signature-256")
    | .error _ => false
  | .origin => !VerifyIPAddress lib app.validator c.ClientIP
  | .jsonParse =>
    match c.Body with
    | .ok rawBody =>
      match lib.jsonUnmarshal rawBody with
      | .error _ => true
      | .ok _ => false
    | .error _ => false

/-- The HTTP status with which a failed check is answered. -/
def Check.status : Check → Nat
  | .headersPresent => 400
  | .bodyRead => 400
  | .bodySize => 413
  | .headerFormat => 400
  | .signature => 401
  | .origin => 403
  | .jsonParse => 400

/-- The error code with which a failed check is answered. -/
def Check.code : Check → String
  | .headersPresent => "MISSING_HEADERS"
  | .bodyRead => "INVALID_PAYLOAD"
  | .bodySize => "PAYLOAD_TOO_LARGE"
  | .headerFormat => "INVALID_HEADERS"
  | .signature => "INVALID_SIGNATURE"
  | .origin => "FORBIDDEN_IP"
  | .jsonParse => "INVALID_PAYLOAD"

/-- A reply with the scanner's flag blanked: what is left of a success reply
once `metadata.sensitive_data_detected` is disregarded. -/
def Body.withoutSensitiveFlag : Body → Body
  | .error e => .error e
  | .success r =>
    .success { r with Metadata := { r.Metadata with sensitive_data_detected := false } }

/-- The HTTP status that goes with each error code of `ErrorResponse`. -/
def statusOfCode (code : String) : Nat :=
  if code = "MISSING_HEADERS" then 400
  else if code = "INVALID_HEADERS" then 400
  else if code = "INVALID_PAYLOAD" then 400
  else if code = "PAYLOAD_TOO_LARGE" then 413
  else if code = "INVALID_SIGNATURE" then 401
  else if code = "FORBIDDEN_IP" then 403
  else if code = "PROCESSING_ERROR" then 500
  else 0

/-- The value of `metadata.sensitive_data_detected` in a reply, `none` for an
error reply. -/
def Result.sensitiveFlag (r : Result) : Option Bool :=
  match r.body with
  | .success resp => some resp.Metadata.sensitive_data_detected
  | .error _ => none

/-- The security event counted when the scanner reports a finding. -/
def sensitiveDataEvent : Effect := .securityEventsTotal "sensitive_data_detected" "critical"

/-- The log entry of `handlePushEvent` for a commit that `containsSensitiveData`
flags. -/
def sensitiveCommitLog : Effect := .log "critical" "Sensitive data detected in commit"

/-! ## A concrete library, for evaluating the definitions

IPv4 addresses and ranges are parsed and compared as `net` does; the HMAC and
JSON entries are the values of the real functions at the arguments listed. -/

/-- Split a text at every occurrence of a separator. -/
def splitOnChar (sep : Char) : List Char → List (List Char)
  | [] => [[]]
  | c :: cs =>
    if c == sep then [] :: splitOnChar sep cs
    else match splitOnChar sep cs with
      | [] => [[c]]
      | w :: ws => (c :: w) :: ws

/-- A decimal number of one to three digits without a leading zero. -/
def parseDecimal (w : List Char) : Option Nat :=
  if w.isEmpty || w.length > 3 || !w.all reDigit || (w.length > 1 && w.head? == some '0') then
    none
  else
    some (w.foldl (fun n c => 10 * n + (c.toNat - 48)) 0)

/-- Dotted-quad IPv4 parsing. -/
def ipv4Parse (w : List Char) : Option IP :=
  match (splitOnChar '.' w).map parseDecimal with
  | [some a, some b, some c, some d] =>
    if a ≤ 255 && b ≤ 255 && c ≤ 255 && d ≤ 255 then some [a, b, c, d] else none
  | _ => none

/-- The byte at index `i` of the mask of a prefix of `n` bits. -/
def maskByte (n i : Nat) : Nat := 256 - 2 ^ (8 - min 8 (n - 8 * i))

/-- IPv4 `address/bits` parsing; the network number is the masked address. -/
def ipv4ParseCIDR (w : List Char) : Option IPNet :=
  match splitOnChar '/' w with
  | [addr, bits] =>
    match ipv4Parse addr, parseDecimal bits with
    | some ip, some n =>
      if n ≤ 32 then
        let mask := [maskByte n 0, maskByte n 1, maskByte n 2, maskByte n 3]
        some { ip := List.zipWith (fun x m => x &&& m) ip mask, mask := mask }
      else none
    | _, _ => none
  | _ => none

/-- The containment test of `net.IPNet` on addresses of the same length. -/
def ipv4Contains (network : IPNet) (ip : IP) : Bool :=
  ip.length == network.ip.length
    && List.zipWith (fun x m => x &&& m) ip network.mask
      == List.zipWith (fun x m => x &&& m) network.ip network.mask

/-- A push payload with a commit message that mentions a password. -/
def pushBody : String :=
  "\x7b\"repository\":\x7b\"full_name\":\"octo/repo\"\x7d,\"sender\":\x7b\"login\":\"octocat\"\x7d,\"commits\":[\x7b\"id\":\"1\",\"message\":\"update password\"\x7d]\x7d"

/-- A payload whose text holds a quoted password assignment. -/
def noteBody : String := "\x7b\"note\":\"password = 'hunter2'\"\x7d"

/-- The payload of `noteBody` with its two apostrophes written as the JSON
escape `\u0027`: another text of the same JSON value. -/
def escapedNoteBody : String :=
  "\x7b\"note\":\"password = \\u0027hunter2\\u0027\"\x7d"

/-- The secret of the examples. -/
def sampleSecret : String := "webhook-secret"

/-- The library used to evaluate the definitions at concrete inputs: IPv4
only, HMAC-SHA256 under `sampleSecret` and JSON decoding tabulated for the
bodies `\x7b\x7d`, `pushBody`, `noteBody` and `escapedNoteBody`, ASCII
lower-casing. -/
def sampleLib : Lib where
  hmacSHA256 key message :=
    if key = sampleSecret ∧ message = "\x7b\x7d" then
      [56, 215, 149, 28, 208, 46, 171, 27, 84, 208, 224, 228, 37, 124, 39, 157,
       100, 6, 32, 150, 30, 28, 67, 129, 136, 188, 37, 47, 60, 103, 50, 219]
    else if key = sampleSecret ∧ message = pushBody then
      [239, 246, 132, 223, 178, 102, 197, 6, 39, 179, 101, 45, 140, 104, 51, 243,
       184, 112, 34, 218, 94, 176, 35, 55, 126, 24, 210, 74, 9, 171, 51, 95]
    else if key = sampleSecret ∧ message = noteBody then
      [5, 148, 174, 81, 82, 109, 255, 136, 246, 30, 249, 43, 253, 233, 228, 8,
       65, 1, 165, 112, 178, 202, 106, 231, 7, 122, 118, 134, 145, 108, 126, 235]
    else if key = sampleSecret ∧ message = escapedNoteBody then
      [192, 191, 26, 233, 229, 25, 14, 165, 229, 239, 47, 106, 151, 50, 1, 29,
       107, 105, 82, 139, 174, 228, 127, 221, 234, 235, 208, 221, 185, 176, 152, 24]
    else []
  parseIP s := ipv4Parse s.toList
  parseCIDR s := ipv4ParseCIDR s.toList
  contains := ipv4Contains
  jsonUnmarshal body :=
    if body = "\x7b\x7d" then .ok []
    else if body = pushBody then
      .ok [("repository", .obj [("full_name", .str "octo/repo")]),
           ("sender", .obj [("login", .str "octocat")]),
           ("commits", .arr [.obj [("id", .str "1"), ("message", .str "update password")]])]
    else if body = noteBody then .ok [("note", .str "password = 'hunter2'")]
    else if body = escapedNoteBody then .ok [("note", .str "password = 'hunter2'")]
    else .error "invalid character"
  toLower s := String.mk (s.toList.map Char.toLower)

/-- The default configuration of `main` with the secret of the examples. -/
def sampleConfig : Config :=
  { Security :=
    { WebhookSecret := sampleSecret
      AllowedIPs := []
      MaxPayloadSizeMB := 10
      IPValidationStrict := true
      EnableSignatureVerify := true } }

/-- The configuration of the examples with signature verification switched off. -/
def unverifiedConfig : Config :=
  { Security := { sampleConfig.Security with EnableSignatureVerify := false } }

/-- The configuration of the examples with a size limit of zero megabytes. -/
def zeroLimitConfig : Config :=
  { Security := { sampleConfig.Security with MaxPayloadSizeMB := 0 } }

/-- A well-formed signature header that is not the digest of any sample body. -/
def zeroSignature : String :=
  "sha256=0000000000000000000000000000000000000000000000000000000000000000"

/-- The body consisting of an empty JSON object. -/
def emptyObjectBody : String := "\x7b\x7d"

/-- The signature of `emptyObjectBody` under `sampleSecret`. -/
def emptyObjectSignature : String :=
  "sha256=38d7951cd02eab1b54d0e0e4257c279d640620961e1c438188bc252f3c6732db"

/-- The signature of `pushBody` under `sampleSecret`. -/
def pushSignature : String :=
  "sha256=eff684dfb266c50627b3652d8c6833f3b87022da5eb023377e18d24a09ab335f"

/-- The signature of `noteBody` under `sampleSecret`. -/
def noteSignature : String :=
  "sha256=0594ae51526dff88f61ef92bfde9e4084101a570b2ca6ae7077a7686916c7eeb"

/-- The signature of `escapedNoteBody` under `sampleSecret`. -/
def escapedNoteSignature : String :=
  "sha256=c0bf1ae9e5190ea5e5ef2f6a9732011d6b69528baee47fddeaebd0ddb9b09818"

/-- An address inside the first GitHub range. -/
def githubAddress : String := "140.82.112.1"

/-- An address outside every GitHub range. -/
def foreignAddress : String := "203.0.113.7"

/-- A request with the given headers (one value each), body and caller. -/
def sampleRequest (headers : List (String × String)) (body : String) (clientIP : String) :
    Request :=
  { Header := headers.map (fun kv => (kv.1, [kv.2]))
    Body := .ok body
    ClientIP := clientIP
    RequestID := "req-1"
    Now := 1700000000
    ElapsedMs := 3 }

/-- Well-formed webhook headers carrying the given event type and signature. -/
def sampleHeaders (eventType signature : String) : List (String × String) :=
  [("X-Github-Delivery", "12345678-1234-1234-1234-123456789abc"),
   ("X-Github-Event", eventType),
   ("X-Hub-Signature-256", signature),
   ("User-Agent", "GitHub-Hookshot/abc123")]

/-- Well-formed webhook headers without the user-agent. -/
def headersWithoutUserAgent : List (String × String) :=
  [("X-Github-Delivery", "12345678-1234-1234-1234-123456789abc"),
   ("X-Github-Event", "push"),
   ("X-Hub-Signature-256", emptyObjectSignature)]

/-- Well-formed webhook headers without the delivery identifier. -/
def headersWithoutDelivery : List (String × String) :=
  [("X-Github-Event", "push"),
   ("X-Hub-Signature-256", emptyObjectSignature),
   ("User-Agent", "GitHub-Hookshot/abc123")]

/-- A payload with markup, a script block and control characters in its leaves. -/
def markupPayload : List (String × Node) :=
  [("title", .str " <b>fix</b> login "),
   ("commits", .arr [.obj [("message", .str "x<script>alert(1)</script>y")], .str "a\x00b"]),
   ("count", .other (.number 3))]

/-- An event processor that fails on every event. -/
def failingDispatch (_eventType : String) (_payload : List (String × Node)) :
    List Effect × Option String :=
  ([], some "handler failed")

set_option maxRecDepth 1000000

/-! ## Lemmas on the matcher -/

namespace Regex

theorem mem_manyEnds (p : Char → Bool) (s rest : List Char) :
    rest ∈ manyEnds p s ↔ ∃ pre, s = pre ++ rest ∧ ∀ c ∈ pre, p c = true := by
  induction s with
  | nil =>
    simp only [manyEnds, List.mem_singleton]
    constructor
    · rintro rfl; exact ⟨[], rfl, by simp⟩
    · rintro ⟨pre, h, -⟩
      have := List.append_eq_nil.mp h.symm
      exact this.2
  | cons c cs ih =>
    unfold manyEnds
    by_cases hc : p c = true
    · rw [if_pos hc]
      simp only [List.mem_append, List.mem_singleton, ih]
      constructor
      · rintro (⟨pre, h, hp⟩ | rfl)
        · exact ⟨c :: pre, by simp [h], by simpa [hc] using hp⟩
        · exact ⟨[], rfl, by simp⟩
      · rintro ⟨pre, h, hp⟩
        cases pre with
        | nil => right; simpa using h.symm
        | cons d pre =>
          left
          simp only [List.cons_append, List.cons.injEq] at h
          exact ⟨pre, h.2, fun x hx => hp x (List.mem_cons_of_mem _ hx)⟩
    · rw [if_neg hc]
      simp only [List.mem_singleton]
      constructor
      · rintro rfl; exact ⟨[], rfl, by simp⟩
      · rintro ⟨pre, h, hp⟩
        cases pre with
        | nil => simpa using h.symm
        | cons d pre =>
          simp only [List.cons_append, List.cons.injEq] at h
          exact absurd (h.1 ▸ hp d (List.mem_cons_self _ _)) hc

theorem mem_fewEnds (p : Char → Bool) (s rest : List Char) :
    rest ∈ fewEnds p s ↔ ∃ pre, s = pre ++ rest ∧ ∀ c ∈ pre, p c = true := by
  induction s with
  | nil =>
    simp only [fewEnds, List.mem_singleton]
    constructor
    · rintro rfl; exact ⟨[], rfl, by simp⟩
    · rintro ⟨pre, h, -⟩
      have := List.append_eq_nil.mp h.symm
      exact this.2
  | cons c cs ih =>
    unfold fewEnds
    by_cases hc : p c = true
    · rw [if_pos hc]
      simp only [List.mem_cons, ih]
      constructor
      · rintro (rfl | ⟨pre, h, hp⟩)
        · exact ⟨[], rfl, by simp⟩
        · exact ⟨c :: pre, by simp [h], by simpa [hc] using hp⟩
      · rintro ⟨pre, h, hp⟩
        cases pre with
        | nil => left; simpa using h.symm
        | cons d pre =>
          right
          simp only [List.cons_append, List.cons.injEq] at h
          exact ⟨pre, h.2, fun x hx => hp x (List.mem_cons_of_mem _ hx)⟩
    · rw [if_neg hc]
      simp only [List.mem_cons, List.not_mem_nil, or_false]
      constructor
      · rintro rfl; exact ⟨[], rfl, by simp⟩
      · rintro ⟨pre, h, hp⟩
        cases pre with
        | nil => simpa using h.symm
        | cons d pre =>
          simp only [List.cons_append, List.cons.injEq] at h
          exact absurd (h.1 ▸ hp d (List.mem_cons_self _ _)) hc

/-- The matcher is sound and complete for the language of the pattern: the
inputs it can leave are exactly those that follow an accepted prefix. -/
theorem mem_ends (r : Regex) (s rest : List Char) :
    rest ∈ r.ends s ↔ ∃ pre, s = pre ++ rest ∧ r.Accepts pre := by
  induction r generalizing s rest with
  | empty =>
    simp only [ends, List.mem_singleton, Accepts]
    constructor
    · rintro rfl; exact ⟨[], rfl, rfl⟩
    · rintro ⟨pre, h, rfl⟩; simpa using h.symm
  | set p =>
    cases s with
    | nil =>
      simp only [ends, List.not_mem_nil, Accepts, false_iff]
      rintro ⟨pre, h, c, rfl, -⟩
      simp at h
    | cons d ds =>
      simp only [ends, Accepts]
      constructor
      · intro h
        by_cases hd : p d = true
        · simp only [hd, if_true, List.mem_singleton] at h
          exact ⟨[d], by simp [h], d, rfl, hd⟩
        · simp [hd] at h
      · rintro ⟨pre, h, c, rfl, hc⟩
        simp only [List.singleton_append, List.cons.injEq] at h
        obtain ⟨rfl, rfl⟩ := h
        simp [hc]
  | seq r s ihr ihs =>
    simp only [ends, List.mem_flatMap, Accepts]
    constructor
    · rintro ⟨mid, hmid, hrest⟩
      obtain ⟨u, hu, hru⟩ := (ihr _ _).mp hmid
      obtain ⟨v, hv, hsv⟩ := (ihs _ _).mp hrest
      exact ⟨u ++ v, by simp [hu, hv], u, v, rfl, hru, hsv⟩
    · rintro ⟨pre, h, u, v, rfl, hru, hsv⟩
      exact ⟨v ++ rest, (ihr _ _).mpr ⟨u, by simp [h], hru⟩, (ihs _ _).mpr ⟨v, rfl, hsv⟩⟩
  | alt r s ihr ihs =>
    simp only [ends, List.mem_append, Accepts, ihr, ihs]
    constructor
    · rintro (⟨pre, h, ha⟩ | ⟨pre, h, ha⟩)
      · exact ⟨pre, h, Or.inl ha⟩
      · exact ⟨pre, h, Or.inr ha⟩
    · rintro ⟨pre, h, ha | ha⟩
      · exact Or.inl ⟨pre, h, ha⟩
      · exact Or.inr ⟨pre, h, ha⟩
  | many p => simpa only [ends, Accepts] using mem_manyEnds p s rest
  | few p => simpa only [ends, Accepts] using mem_fewEnds p s rest

/-- A whole-text match is acceptance of the text. -/
theorem fullMatch_iff (r : Regex) (s : List Char) : r.fullMatch s = true ↔ r.Accepts s := by
  simp only [fullMatch, List.any_eq_true, List.isEmpty_iff]
  constructor
  · rintro ⟨rest, hmem, rfl⟩
    obtain ⟨pre, h, ha⟩ := (mem_ends _ _ _).mp hmem
    simpa [h] using ha
  · intro h
    exact ⟨[], (mem_ends _ _ _).mpr ⟨s, by simp, h⟩, rfl⟩

end Regex

/-! ## Signature verification -/

theorem toList_sha256_append (x : String) :
    ("sha256=" ++ x).toList = "sha256=".toList ++ x.toList := by
  simp [String.toList, String.data_append]

/-- C1: `VerifySignature` returns true exactly when the signature is `sha256=`
followed by the lower-case hexadecimal HMAC-SHA256 of the body under the
secret; the signature so produced verifies, and every other string (a
single-byte mutation, a string without the prefix, a string of another length)
yields false.  The function is total. -/
theorem verifySignature_iff_expected (lib : Lib) (v : WebhookSecurityValidator)
    (payload signature : String) :
    (VerifySignature lib v payload signature = true ↔
      signature = "sha256=" ++ hexEncodeToString (lib.hmacSHA256 v.config.WebhookSecret payload))
    ∧ VerifySignature lib v payload
        ("sha256=" ++ hexEncodeToString (lib.hmacSHA256 v.config.WebhookSecret payload)) = true
    ∧ (VerifySignature lib v payload signature = false ↔
      signature ≠ "sha256=" ++ hexEncodeToString (lib.hmacSHA256 v.config.WebhookSecret payload)) := by
  have key : ∀ s : String, VerifySignature lib v payload s = true ↔
      s = "sha256=" ++ hexEncodeToString (lib.hmacSHA256 v.config.WebhookSecret payload) := by
    intro s
    unfold VerifySignature
    by_cases hp : ("sha256=".toList).isPrefixOf s.toList = true
    · simp only [hp, Bool.not_true, Bool.false_eq_true, if_false, decide_eq_true_eq]
    · simp only [hp, Bool.not_false, if_true, Bool.false_eq_true, false_iff]
      intro h
      apply hp
      rw [h, toList_sha256_append, List.isPrefixOf_iff_prefix]
      exact List.prefix_append _ _
  refine ⟨key signature, (key _).mpr rfl, ?_⟩
  rw [Ne, ← key signature]
  cases VerifySignature lib v payload signature <;> simp

/-! ## Origin allow-list -/

/-- C7: `VerifyIPAddress` admits exactly the addresses that parse and lie in at
least one allowed network, and, when strict validation is off, the two
loopback literals.  A string that does not parse is rejected; under strict
validation every address outside all ranges is rejected. -/
theorem verifyIPAddress_iff (lib : Lib) (v : WebhookSecurityValidator) (clientIP : String) :
    VerifyIPAddress lib v clientIP = true ↔
      (∃ ip, lib.parseIP clientIP = some ip
          ∧ ∃ network ∈ v.allowedNetworks, lib.contains network ip = true)
      ∨ (v.config.IPValidationStrict = false ∧ (clientIP = "127.0.0.1" ∨ clientIP = "::1")) := by
  unfold VerifyIPAddress
  by_cases hs : v.config.IPValidationStrict = true
  · cases hp : lib.parseIP clientIP <;> simp [hs, hp]
  · by_cases hl : clientIP = "127.0.0.1" ∨ clientIP = "::1"
    · have : (clientIP == "127.0.0.1" || clientIP == "::1") = true := by
        rcases hl with h | h <;> simp [h]
      simp [hs, hl, this]
    · have : (clientIP == "127.0.0.1" || clientIP == "::1") = false := by
        simp only [not_or] at hl
        simp [hl.1, hl.2]
      cases hp : lib.parseIP clientIP <;> simp [hs, hl, this, hp]

/-! ## Sanitizer: shape -/

mutual
theorem sameShapeFields_sanitize : ∀ m : List (String × Node),
    SameShapeFields m (SanitizePayload m)
  | [] => by simp [SanitizePayload, SameShapeFields]
  | (k, .str s) :: rest => by
    simp only [SanitizePayload, SameShapeFields, SameShape, true_and]
    exact sameShapeFields_sanitize rest
  | (k, .obj m) :: rest => by
    simp only [SanitizePayload, SameShapeFields, SameShape, true_and]
    exact ⟨sameShapeFields_sanitize m, sameShapeFields_sanitize rest⟩
  | (k, .arr a) :: rest => by
    simp only [SanitizePayload, SameShapeFields, SameShape, true_and]
    exact ⟨sameShapeItems_sanitize a, sameShapeFields_sanitize rest⟩
  | (k, .other x) :: rest => by
    simp only [SanitizePayload, SameShapeFields, SameShape, true_and]
    exact sameShapeFields_sanitize rest
theorem sameShapeItems_sanitize : ∀ a : List Node, SameShapeItems a (sanitizeArray a)
  | [] => by simp [sanitizeArray, SameShapeItems]
  | .str s :: rest => by
    simp only [sanitizeArray, SameShapeItems, SameShape, true_and]
    exact sameShapeItems_sanitize rest
  | .obj m :: rest => by
    simp only [sanitizeArray, SameShapeItems, SameShape]
    exact ⟨sameShapeFields_sanitize m, sameShapeItems_sanitize rest⟩
  | .arr a :: rest => by
    simp only [sanitizeArray, SameShapeItems, SameShape]
    exact ⟨sameShapeItems_sanitize a, sameShapeItems_sanitize rest⟩
  | .other x :: rest => by
    simp only [sanitizeArray, SameShapeItems, SameShape, true_and]
    exact sameShapeItems_sanitize rest
end

theorem keys_of_sameShapeFields : ∀ m m' : List (String × Node),
    SameShapeFields m m' → m'.map Prod.fst = m.map Prod.fst
  | [], [], _ => rfl
  | [], _ :: _, h => by simp [SameShapeFields] at h
  | _ :: _, [], h => by simp [SameShapeFields] at h
  | (k, v) :: rest, (k', v') :: rest', h => by
    simp only [SameShapeFields] at h
    simp [h.1, keys_of_sameShapeFields rest rest' h.2.2]

theorem length_of_sameShapeItems : ∀ a a' : List Node,
    SameShapeItems a a' → a'.length = a.length
  | [], [], _ => rfl
  | [], _ :: _, h => by simp [SameShapeItems] at h
  | _ :: _, [], h => by simp [SameShapeItems] at h
  | x :: rest, x' :: rest', h => by
    simp only [SameShapeItems] at h
    simp [length_of_sameShapeItems rest rest' h.2]

/-- C5: `SanitizePayload` returns a tree of the same shape as its argument:
the same keys in every mapping, the same length and order in every sequence,
the same kind at every node, every non-string leaf unchanged; only string
leaves may differ, at every depth through mappings and sequences. -/
theorem sanitizePayload_preserves_shape (payload : List (String × Node)) (items : List Node) :
    SameShapeFields payload (SanitizePayload payload)
    ∧ (SanitizePayload payload).map Prod.fst = payload.map Prod.fst
    ∧ SameShapeItems items (sanitizeArray items)
    ∧ (sanitizeArray items).length = items.length :=
  ⟨sameShapeFields_sanitize payload,
   keys_of_sameShapeFields _ _ (sameShapeFields_sanitize payload),
   sameShapeItems_sanitize items,
   length_of_sameShapeItems _ _ (sameShapeItems_sanitize items)⟩

/-! ## Request handler: stages -/

theorem processWebhookEvent_snd (lib : Lib) (eventType : String) (payload : List (String × Node)) :
    (processWebhookEvent lib eventType payload).2 = none := by
  unfold processWebhookEvent
  repeat' split
  all_goals rfl

theorem handler_missing (lib : Lib) (app : Application) (c : Request)
    (h : c.GetHeader "X-Github-Delivery" = "" ∨ c.GetHeader "X-Github-Event" = ""
      ∨ c.GetHeader "X-Hub-Signature-256" = "") :
    webhookHandler lib app c =
      reject c [.log "error" "Missing required headers",
        .errorsTotal "missing_headers" (c.GetHeader "X-Github-Event")]
        400 "MISSING_HEADERS" "Required headers are missing" "" := by
  unfold webhookHandler
  simp only [if_pos h]

theorem handler_readError (lib : Lib) (app : Application) (c : Request) (e : String)
    (h : ¬(c.GetHeader "X-Github-Delivery" = "" ∨ c.GetHeader "X-Github-Event" = ""
      ∨ c.GetHeader "X-Hub-Signature-256" = ""))
    (hb : c.Body = .error e) :
    webhookHandler lib app c =
      reject c [.log "error" "Failed to read request body",
        .errorsTotal "read_body_error" (c.GetHeader "X-Github-Event")]
        400 "INVALID_PAYLOAD" "Failed to read request body" "" := by
  unfold webhookHandler
  simp only [if_neg h, hb]

theorem handler_tooLarge (lib : Lib) (app : Application) (c : Request) (rawBody : String)
    (h : ¬(c.GetHeader "X-Github-Delivery" = "" ∨ c.GetHeader "X-Github-Event" = ""
      ∨ c.GetHeader "X-Hub-Signature-256" = ""))
    (hb : c.Body = .ok rawBody) (hsz : (rawBody.utf8ByteSize : Int) > maxSize app) :
    webhookHandler lib app c =
      reject c [.log "error" ("Payload size exceeded: " ++ toString rawBody.utf8ByteSize ++ " bytes"),
        .errorsTotal "payload_too_large" (c.GetHeader "X-Github-Event")]
        413 "PAYLOAD_TOO_LARGE"
        ("Payload size exceeded " ++ toString app.config.Security.MaxPayloadSizeMB ++ "MB limit")
        "" := by
  unfold webhookHandler
  simp only [if_neg h, hb, if_pos hsz]

theorem handler_invalidHeaders (lib : Lib) (app : Application) (c : Request) (rawBody err : String)
    (h : ¬(c.GetHeader "X-Github-Delivery" = "" ∨ c.GetHeader "X-Github-Event" = ""
      ∨ c.GetHeader "X-Hub-Signature-256" = ""))
    (hb : c.Body = .ok rawBody) (hsz : ¬(rawBody.utf8ByteSize : Int) > maxSize app)
    (hv : ValidateHeaders c.headers = some err) :
    webhookHandler lib app c =
      reject c [.call .ValidateHeaders, .log "error" "Header validation failed",
        .errorsTotal "invalid_headers" (c.GetHeader "X-Github-Event")]
        400 "INVALID_HEADERS" "Header validation failed" err := by
  unfold webhookHandler
  simp only [if_neg h, hb, if_neg hsz, hv, List.singleton_append]

theorem handler_badSignature (lib : Lib) (app : Application) (c : Request) (rawBody : String)
    (h : ¬(c.GetHeader "X-Github-Delivery" = "" ∨ c.GetHeader "X-Github-Event" = ""
      ∨ c.GetHeader "X-Hub-Signature-256" = ""))
    (hb : c.Body = .ok rawBody) (hsz : ¬(rawBody.utf8ByteSize : Int) > maxSize app)
    (hv : ValidateHeaders c.headers = none)
    (hs : (app.config.Security.EnableSignatureVerify
      && !VerifySignature lib app.validator rawBody (c.GetHeader "X-Hub-Signature-256")) = true) :
    webhookHandler lib app c =
      reject c (sigTrace app ++ [.log "error" "Signature verification failed",
        .securityEventsTotal "signature_verification_failed" "high",
        .errorsTotal "invalid_signature" (c.GetHeader "X-Github-Event")])
        401 "INVALID_SIGNATURE" "Webhook signature verification failed" "" := by
  unfold webhookHandler sigTrace
  simp only [if_neg h, hb, if_neg hsz, hv, if_pos hs, List.singleton_append]

theorem handler_forbidden (lib : Lib) (app : Application) (c : Request) (rawBody : String)
    (h : ¬(c.GetHeader "X-Github-Delivery" = "" ∨ c.GetHeader "X-Github-Event" = ""
      ∨ c.GetHeader "X-Hub-Signature-256" = ""))
    (hb : c.Body = .ok rawBody) (hsz : ¬(rawBody.utf8ByteSize : Int) > maxSize app)
    (hv : ValidateHeaders c.headers = none)
    (hs : ¬(app.config.Security.EnableSignatureVerify
      && !VerifySignature lib app.validator rawBody (c.GetHeader "X-Hub-Signature-256")) = true)
    (hip : (!VerifyIPAddress lib app.validator c.ClientIP) = true) :
    webhookHandler lib app c =
      reject c (sigTrace app ++ [.call .VerifyIPAddress, .log "error" "Unauthorized IP access",
        .securityEventsTotal "unauthorized_ip" "critical",
        .errorsTotal "forbidden_ip" (c.GetHeader "X-Github-Event")])
        403 "FORBIDDEN_IP" "Access denied: IP not allowed" "" := by
  unfold webhookHandler sigTrace
  simp only [if_neg h, hb, if_neg hsz, hv, if_neg hs, if_pos hip, List.singleton_append,
    List.append_assoc, List.cons_append, List.nil_append]

theorem handler_badJson (lib : Lib) (app : Application) (c : Request) (rawBody err : String)
    (h : ¬(c.GetHeader "X-Github-Delivery" = "" ∨ c.GetHeader "X-Github-Event" = ""
      ∨ c.GetHeader "X-Hub-Signature-256" = ""))
    (hb : c.Body = .ok rawBody) (hsz : ¬(rawBody.utf8ByteSize : Int) > maxSize app)
    (hv : ValidateHeaders c.headers = none)
    (hs : ¬(app.config.Security.EnableSignatureVerify
      && !VerifySignature lib app.validator rawBody (c.GetHeader "X-Hub-Signature-256")) = true)
    (hip : ¬(!VerifyIPAddress lib app.validator c.ClientIP) = true)
    (hj : lib.jsonUnmarshal rawBody = .error err) :
    webhookHandler lib app c =
      reject c (sigTrace app ++ [.call .VerifyIPAddress, .call .jsonUnmarshal,
        .log "error" "JSON parsing failed",
        .errorsTotal "json_parse_error" (c.GetHeader "X-Github-Event")])
        400 "INVALID_PAYLOAD" "Invalid JSON payload" err := by
  unfold webhookHandler sigTrace
  simp only [if_neg h, hb, if_neg hsz, hv, if_neg hs, if_neg hip, hj, List.singleton_append,
    List.append_assoc, List.cons_append, List.nil_append]

theorem handler_admitted (lib : Lib) (app : Application) (c : Request) (rawBody : String)
    (payload : List (String × Node))
    (h : ¬(c.GetHeader "X-Github-Delivery" = "" ∨ c.GetHeader "X-Github-Event" = ""
      ∨ c.GetHeader "X-Hub-Signature-256" = ""))
    (hb : c.Body = .ok rawBody) (hsz : ¬(rawBody.utf8ByteSize : Int) > maxSize app)
    (hv : ValidateHeaders c.headers = none)
    (hs : ¬(app.config.Security.EnableSignatureVerify
      && !VerifySignature lib app.validator rawBody (c.GetHeader "X-Hub-Signature-256")) = true)
    (hip : ¬(!VerifyIPAddress lib app.validator c.ClientIP) = true)
    (hj : lib.jsonUnmarshal rawBody = .ok payload) :
    webhookHandler lib app c =
      { effects := sigTrace app ++ [.call .VerifyIPAddress, .call .jsonUnmarshal]
          ++ scanTrace app rawBody ++ [.call .SanitizePayload, .call .processWebhookEvent]
          ++ (processWebhookEvent lib (c.GetHeader "X-Github-Event") (SanitizePayload payload)).1
          ++ [.requestsTotal (c.GetHeader "X-Github-Event") "success"
                (getRepositoryName (SanitizePayload payload)),
              .processingDuration (c.GetHeader "X-Github-Event") "success",
              .log "info" "Webhook processed successfully"]
        status := 200
        body := .success
          { Status := "success"
            DeliveryID := c.GetHeader "X-Github-Delivery"
            EventType := c.GetHeader "X-Github-Event"
            ProcessingTimeMs := c.ElapsedMs
            Timestamp := c.Now
            Metadata :=
              { repository := getRepositoryName (SanitizePayload payload)
                sender := getSenderName (SanitizePayload payload)
                security_checks_passed := true
                sensitive_data_detected :=
                  decide ((DetectSensitiveData app.validator rawBody).length > 0) } } } := by
  unfold webhookHandler sigTrace scanTrace
  simp only [if_neg h, hb, if_neg hsz, hv, if_neg hs, if_neg hip, hj, processWebhookEvent_snd]
  congr 1
  split <;> split <;> simp


theorem first_failure_result (lib : Lib) (app : Application) (c : Request) (k : Check)
    (h : checkOrder.find? (fun k => k.fails lib app c) = some k) :
    (webhookHandler lib app c).status = k.status
    ∧ (webhookHandler lib app c).errorCode = some k.code
    ∧ (webhookHandler lib app c).dispatched = false
    ∧ ((webhookHandler lib app c).invoked .VerifySignature = true →
        k = .signature ∨ k = .origin ∨ k = .jsonParse) := by
  by_cases hm : c.GetHeader "X-Github-Delivery" = "" ∨ c.GetHeader "X-Github-Event" = ""
      ∨ c.GetHeader "X-Hub-Signature-256" = ""
  · have hk : k = .headersPresent := by
      have : Check.fails lib app c .headersPresent = true := by
        simp only [Check.fails, Bool.or_eq_true, beq_iff_eq]; tauto
      simp only [checkOrder, List.find?_cons, this, Option.some.injEq] at h
      exact h.symm
    subst hk
    rw [handler_missing lib app c hm]
    exact ⟨rfl, rfl, by simp [reject, Result.dispatched], by simp [reject, Result.invoked]⟩
  have hm' : Check.fails lib app c .headersPresent = false := by
    simp only [Check.fails, Bool.or_eq_false_iff, beq_eq_false_iff_ne]; tauto
  cases hb : c.Body with
  | error e =>
    have hk : k = .bodyRead := by
      have : Check.fails lib app c .bodyRead = true := by simp only [Check.fails, hb]
      simp only [checkOrder, List.find?_cons, hm', this, Option.some.injEq] at h
      exact h.symm
    subst hk
    rw [handler_readError lib app c e hm hb]
    exact ⟨rfl, rfl, by simp [reject, Result.dispatched], by simp [reject, Result.invoked]⟩
  | ok rawBody =>
  have hr : Check.fails lib app c .bodyRead = false := by simp only [Check.fails, hb]
  by_cases hsz : (rawBody.utf8ByteSize : Int) > maxSize app
  · have hk : k = .bodySize := by
      have : Check.fails lib app c .bodySize = true := by simp only [Check.fails, hb, hsz, decide_True]
      simp only [checkOrder, List.find?_cons, hm', hr, this, Option.some.injEq] at h
      exact h.symm
    subst hk
    rw [handler_tooLarge lib app c rawBody hm hb hsz]
    exact ⟨rfl, rfl, by simp [reject, Result.dispatched], by simp [reject, Result.invoked]⟩
  have hsz' : Check.fails lib app c .bodySize = false := by
    simp only [Check.fails, hb, hsz, decide_False]
  cases hv : ValidateHeaders c.headers with
  | some err =>
    have hk : k = .headerFormat := by
      have : Check.fails lib app c .headerFormat = true := by simp only [Check.fails, hv, Option.isSome]
      simp only [checkOrder, List.find?_cons, hm', hr, hsz', this, Option.some.injEq] at h
      exact h.symm
    subst hk
    rw [handler_invalidHeaders lib app c rawBody err hm hb hsz hv]
    exact ⟨rfl, rfl, by simp [reject, Result.dispatched], by simp [reject, Result.invoked]⟩
  | none =>
  have hv' : Check.fails lib app c .headerFormat = false := by
    simp only [Check.fails, hv, Option.isSome]
  by_cases hs : (app.config.Security.EnableSignatureVerify
      && !VerifySignature lib app.validator rawBody (c.GetHeader "X-Hub-Signature-256")) = true
  · have hk : k = .signature := by
      have : Check.fails lib app c .signature = true := by simp only [Check.fails, hb, hs]
      simp only [checkOrder, List.find?_cons, hm', hr, hsz', hv', this, Option.some.injEq] at h
      exact h.symm
    subst hk
    rw [handler_badSignature lib app c rawBody hm hb hsz hv hs]
    refine ⟨rfl, rfl, ?_, by simp⟩
    unfold sigTrace; split <;> simp [reject, Result.dispatched]
  have hs' : Check.fails lib app c .signature = false := by
    simp only [Check.fails, hb]; simpa using hs
  by_cases hip : (!VerifyIPAddress lib app.validator c.ClientIP) = true
  · have hk : k = .origin := by
      have : Check.fails lib app c .origin = true := by simp only [Check.fails, hip]
      simp only [checkOrder, List.find?_cons, hm', hr, hsz', hv', hs', this,
        Option.some.injEq] at h
      exact h.symm
    subst hk
    rw [handler_forbidden lib app c rawBody hm hb hsz hv hs hip]
    refine ⟨rfl, rfl, ?_, by simp⟩
    unfold sigTrace; split <;> simp [reject, Result.dispatched]
  have hip' : Check.fails lib app c .origin = false := by
    simp only [Check.fails]; simpa using hip
  cases hj : lib.jsonUnmarshal rawBody with
  | error err =>
    have hk : k = .jsonParse := by
      have : Check.fails lib app c .jsonParse = true := by simp only [Check.fails, hb, hj]
      simp only [checkOrder, List.find?_cons, hm', hr, hsz', hv', hs', hip', this,
        Option.some.injEq] at h
      exact h.symm
    subst hk
    rw [handler_badJson lib app c rawBody err hm hb hsz hv hs hip hj]
    refine ⟨rfl, rfl, ?_, by simp⟩
    unfold sigTrace; split <;> simp [reject, Result.dispatched]
  | ok payload =>
    have hj' : Check.fails lib app c .jsonParse = false := by simp only [Check.fails, hb, hj]
    simp [checkOrder, List.find?_cons, hm', hr, hsz', hv', hs', hip', hj'] at h


theorem getHeader_of_lookup_none (c : Request) (key : String)
    (h : c.Header.lookup key = none) : c.GetHeader key = "" := by
  simp [Request.GetHeader, h]

theorem lookup_filterMap_none (key : String) : ∀ l : List (String × List String),
    l.lookup key = none →
    (l.filterMap (fun kv => match kv.2 with
      | value :: _ => some (kv.1, value)
      | [] => none)).lookup key = none
  | [], _ => rfl
  | (k, vs) :: rest, h => by
    rw [List.lookup_cons] at h
    cases hk : (key == k)
    · rw [hk] at h
      cases vs with
      | nil => simpa [List.filterMap_cons] using lookup_filterMap_none key rest h
      | cons v vs =>
        simp only [List.filterMap_cons, List.lookup_cons, hk]
        exact lookup_filterMap_none key rest h
    · rw [hk] at h; cases h

theorem validateHeaders_of_missing (headers : List (String × String)) (key : String)
    (hk : key ∈ requiredHeaders) (h : headers.lookup key = none) :
    ∃ err, ValidateHeaders headers = some err := by
  unfold ValidateHeaders
  cases hf : requiredHeaders.find? (fun header => (headers.lookup header).isNone) with
  | some header => exact ⟨_, rfl⟩
  | none =>
    rw [List.find?_eq_none] at hf
    exact absurd (by simp [h]) (hf key hk)

/-- C8 (amended): a request from which the delivery, event-type or signature
header is absent is rejected with status 400 and code `MISSING_HEADERS`; one
from which only the user-agent is absent (body read and within the limit) is
rejected with `INVALID_HEADERS`; in both cases the signature verifier is not
invoked and nothing is dispatched. -/
theorem missing_header_rejected (lib : Lib) (app : Application) (c : Request) (key : String)
    (hk : key ∈ requiredHeaders) (habs : c.Header.lookup key = none) :
    (webhookHandler lib app c).invoked .VerifySignature = false
    ∧ (webhookHandler lib app c).dispatched = false
    ∧ (key ≠ "User-Agent" →
        (webhookHandler lib app c).status = 400
        ∧ (webhookHandler lib app c).errorCode = some "MISSING_HEADERS")
    ∧ (key = "User-Agent" → Check.fails lib app c .headersPresent = false →
        Check.fails lib app c .bodyRead = false → Check.fails lib app c .bodySize = false →
        (webhookHandler lib app c).status = 400
        ∧ (webhookHandler lib app c).errorCode = some "INVALID_HEADERS") := by
  have hg := getHeader_of_lookup_none c key habs
  obtain ⟨err, herr⟩ := validateHeaders_of_missing c.headers key hk
    (lookup_filterMap_none key c.Header habs)
  have hfmt : Check.fails lib app c .headerFormat = true := by
    simp only [Check.fails, herr, Option.isSome]
  have hfind : ∃ k, checkOrder.find? (fun k => k.fails lib app c) = some k
      ∧ (k = .headersPresent ∨ k = .bodyRead ∨ k = .bodySize ∨ k = .headerFormat) := by
    simp only [checkOrder, List.find?_cons]
    cases Check.fails lib app c .headersPresent
    · cases Check.fails lib app c .bodyRead
      · cases Check.fails lib app c .bodySize
        · simp [hfmt]
        · simp
      · simp
    · simp
  obtain ⟨k, hfk, hkk⟩ := hfind
  have hres := first_failure_result lib app c k hfk
  refine ⟨?_, hres.2.2.1, ?_, ?_⟩
  · cases hi : (webhookHandler lib app c).invoked .VerifySignature
    · rfl
    · have := hres.2.2.2 hi
      rcases hkk with rfl | rfl | rfl | rfl <;> simp at this
  · intro hne
    have hm : c.GetHeader "X-Github-Delivery" = "" ∨ c.GetHeader "X-Github-Event" = ""
        ∨ c.GetHeader "X-Hub-Signature-256" = "" := by
      simp only [requiredHeaders, List.mem_cons, List.mem_singleton, List.not_mem_nil,
        or_false] at hk
      rcases hk with rfl | rfl | rfl | rfl
      · exact Or.inl hg
      · exact Or.inr (Or.inl hg)
      · exact Or.inr (Or.inr hg)
      · exact absurd rfl hne
    rw [handler_missing lib app c hm]
    exact ⟨rfl, rfl⟩
  · intro _ h1 h2 h3
    have : checkOrder.find? (fun k => k.fails lib app c) = some .headerFormat := by
      simp [checkOrder, List.find?_cons, h1, h2, h3, hfmt]
    have hres := first_failure_result lib app c _ this
    exact ⟨hres.1, hres.2.1⟩


theorem all_checks_pass (lib : Lib) (app : Application) (c : Request)
    (h : checkOrder.find? (fun k => k.fails lib app c) = none) (k : Check) :
    k.fails lib app c = false := by
  rw [List.find?_eq_none] at h
  have hk : k ∈ checkOrder := by cases k <;> simp [checkOrder]
  simpa using h k hk

theorem passed_of_no_failure (lib : Lib) (app : Application) (c : Request)
    (h : ∀ k : Check, k.fails lib app c = false) :
    ∃ rawBody payload, c.Body = .ok rawBody ∧ lib.jsonUnmarshal rawBody = .ok payload
      ∧ ¬(c.GetHeader "X-Github-Delivery" = "" ∨ c.GetHeader "X-Github-Event" = ""
          ∨ c.GetHeader "X-Hub-Signature-256" = "")
      ∧ ¬(rawBody.utf8ByteSize : Int) > maxSize app
      ∧ ValidateHeaders c.headers = none
      ∧ ¬(app.config.Security.EnableSignatureVerify
          && !VerifySignature lib app.validator rawBody (c.GetHeader "X-Hub-Signature-256")) = true
      ∧ ¬(!VerifyIPAddress lib app.validator c.ClientIP) = true := by
  have h1 := h .headersPresent
  have h2 := h .bodyRead
  have h3 := h .bodySize
  have h4 := h .headerFormat
  have h5 := h .signature
  have h6 := h .origin
  have h7 := h .jsonParse
  simp only [Check.fails] at h1 h2 h3 h4 h5 h6 h7
  cases hb : c.Body with
  | error e => simp [hb] at h2
  | ok rawBody =>
    simp only [hb] at h3 h5 h7
    cases hj : lib.jsonUnmarshal rawBody with
    | error e => simp [hj] at h7
    | ok payload =>
      refine ⟨rawBody, payload, rfl, hj, ?_, ?_, ?_, ?_, ?_⟩
      · simp only [Bool.or_eq_false_iff, beq_eq_false_iff_ne] at h1; tauto
      · simpa using h3
      · cases hv : ValidateHeaders c.headers with
        | none => rfl
        | some e => simp [hv] at h4
      · simp [h5]
      · simp [h6]

/-- C2 (amended): the handler calls `processWebhookEvent` only if the body was
read, `ValidateHeaders` returned nil, the body is within the size limit,
`VerifyIPAddress` returned true and, when `EnableSignatureVerify` is set,
`VerifySignature` returned true for the raw body and the supplied signature. -/
theorem dispatch_requires_checks (lib : Lib) (app : Application) (c : Request)
    (h : (webhookHandler lib app c).dispatched = true) :
    ∃ rawBody, c.Body = .ok rawBody
      ∧ ValidateHeaders c.headers = none
      ∧ (rawBody.utf8ByteSize : Int) ≤ maxSize app
      ∧ (app.config.Security.EnableSignatureVerify = true →
          VerifySignature lib app.validator rawBody (c.GetHeader "X-Hub-Signature-256") = true)
      ∧ VerifyIPAddress lib app.validator c.ClientIP = true := by
  cases hf : checkOrder.find? (fun k => k.fails lib app c) with
  | some k =>
    have := (first_failure_result lib app c k hf).2.2.1
    rw [this] at h; cases h
  | none =>
    obtain ⟨rawBody, payload, hb, -, -, hsz, hv, hs, hip⟩ :=
      passed_of_no_failure lib app c (all_checks_pass lib app c hf)
    refine ⟨rawBody, hb, hv, not_lt.mp hsz, ?_, by simpa using hip⟩
    intro he
    simpa [he] using hs

/-- C3 (amended): the checks are made in the order required headers, body
read, body size, header format, signature (only when `EnableSignatureVerify`
is set), origin, JSON parse; the status and error code of the reply are those
of the first check in this order that fails, whatever the later checks would
say, and nothing is dispatched. -/
theorem first_failing_check_decides (lib : Lib) (app : Application) (c : Request) (k : Check)
    (h : checkOrder.find? (fun k => k.fails lib app c) = some k) :
    (webhookHandler lib app c).status = k.status
    ∧ (webhookHandler lib app c).errorCode = some k.code
    ∧ (webhookHandler lib app c).dispatched = false :=
  ⟨(first_failure_result lib app c k h).1, (first_failure_result lib app c k h).2.1,
   (first_failure_result lib app c k h).2.2.1⟩

theorem wrapInt64_of_range (x : Int) (h1 : -2 ^ 63 ≤ x) (h2 : x < 2 ^ 63) : wrapInt64 x = x := by
  unfold wrapInt64
  rw [Int.emod_eq_of_lt (by omega) (by omega)]
  omega

/-- C9: with the delivery, event-type and signature headers non-empty, a body
longer than `MaxPayloadSizeMB * 1024 * 1024` bytes is rejected with status 413
and code `PAYLOAD_TOO_LARGE`, whatever the signature, the header formats and
the origin; a body up to the limit, the limit included, is not.  The limit is
the value of the Go expression, which is the product itself for every
megabyte count below 2^43 in absolute value. -/
theorem oversized_body_rejected (lib : Lib) (app : Application) (c : Request) (rawBody : String)
    (hd : c.GetHeader "X-Github-Delivery" ≠ "") (he : c.GetHeader "X-Github-Event" ≠ "")
    (hs : c.GetHeader "X-Hub-Signature-256" ≠ "") (hb : c.Body = .ok rawBody) :
    ((rawBody.utf8ByteSize : Int) > maxSize app →
        (webhookHandler lib app c).status = 413
        ∧ (webhookHandler lib app c).errorCode = some "PAYLOAD_TOO_LARGE")
    ∧ ((rawBody.utf8ByteSize : Int) ≤ maxSize app →
        (webhookHandler lib app c).status ≠ 413
        ∧ (webhookHandler lib app c).errorCode ≠ some "PAYLOAD_TOO_LARGE")
    ∧ (-2 ^ 43 ≤ app.config.Security.MaxPayloadSizeMB
        → app.config.Security.MaxPayloadSizeMB < 2 ^ 43
        → maxSize app = app.config.Security.MaxPayloadSizeMB * 1024 * 1024) := by
  have hm : ¬(c.GetHeader "X-Github-Delivery" = "" ∨ c.GetHeader "X-Github-Event" = ""
      ∨ c.GetHeader "X-Hub-Signature-256" = "") := by tauto
  refine ⟨?_, ?_, ?_⟩
  · intro hsz
    rw [handler_tooLarge lib app c rawBody hm hb hsz]
    exact ⟨rfl, rfl⟩
  · intro hle
    have hsz : ¬(rawBody.utf8ByteSize : Int) > maxSize app := not_lt.mpr hle
    cases hf : checkOrder.find? (fun k => k.fails lib app c) with
    | some k =>
      have hres := first_failure_result lib app c k hf
      have hk : k ≠ .bodySize := by
        rintro rfl
        have := List.find?_some hf
        simp [Check.fails, hb, hsz] at this
      rw [hres.1, hres.2.1]
      cases k <;> simp [Check.status, Check.code] at hk ⊢
    | none =>
      obtain ⟨rawBody', payload, hb', hj, -, -, hv, hs', hip⟩ :=
        passed_of_no_failure lib app c (all_checks_pass lib app c hf)
      rw [hb] at hb'
      cases hb'
      rw [handler_admitted lib app c rawBody payload hm hb hsz hv hs' hip hj]
      simp [Result.errorCode]
  · intro h1 h2
    unfold maxSize
    rw [wrapInt64_of_range (app.config.Security.MaxPayloadSizeMB * 1024) (by omega) (by omega)]
    rw [wrapInt64_of_range _ (by omega) (by omega)]


theorem admitted_reply (lib : Lib) (app : Application) (c : Request)
    (hpass : ∀ k : Check, k.fails lib app c = false) :
    ∃ rawBody payload, c.Body = .ok rawBody ∧ lib.jsonUnmarshal rawBody = .ok payload
      ∧ (webhookHandler lib app c).dispatched = true
      ∧ (webhookHandler lib app c).status = 200
      ∧ (webhookHandler lib app c).body = .success
          { Status := "success"
            DeliveryID := c.GetHeader "X-Github-Delivery"
            EventType := c.GetHeader "X-Github-Event"
            ProcessingTimeMs := c.ElapsedMs
            Timestamp := c.Now
            Metadata :=
              { repository := getRepositoryName (SanitizePayload payload)
                sender := getSenderName (SanitizePayload payload)
                security_checks_passed := true
                sensitive_data_detected :=
                  decide ((DetectSensitiveData app.validator rawBody).length > 0) } } := by
  obtain ⟨rawBody, payload, hb, hj, hm, hsz, hv, hs, hip⟩ := passed_of_no_failure lib app c hpass
  refine ⟨rawBody, payload, hb, hj, ?_⟩
  rw [handler_admitted lib app c rawBody payload hm hb hsz hv hs hip hj]
  exact ⟨by simp [Result.dispatched], rfl, rfl⟩

/-- C10: a request that passes the header, size, signature, origin and
JSON-parse checks is dispatched and answered with HTTP 200 and status
`success`, whatever `DetectSensitiveData` reports; its findings only set
`metadata.sensitive_data_detected`.  Two such requests with the same delivery
identifier, event type, clock readings and parsed payload, whose raw bodies the
scanner may judge differently, get the same status and the same reply up to
that flag. -/
theorem scan_never_blocks (lib : Lib) (app : Application) (c c' : Request)
    (hpass : ∀ k : Check, k.fails lib app c = false)
    (hpass' : ∀ k : Check, k.fails lib app c' = false)
    (hdelivery : c'.GetHeader "X-Github-Delivery" = c.GetHeader "X-Github-Delivery")
    (hevent : c'.GetHeader "X-Github-Event" = c.GetHeader "X-Github-Event")
    (hnow : c'.Now = c.Now) (helapsed : c'.ElapsedMs = c.ElapsedMs)
    (hpayload : ∀ rawBody rawBody', c.Body = .ok rawBody → c'.Body = .ok rawBody' →
      lib.jsonUnmarshal rawBody' = lib.jsonUnmarshal rawBody) :
    (webhookHandler lib app c).dispatched = true
    ∧ (webhookHandler lib app c).status = 200
    ∧ (∃ resp rawBody, (webhookHandler lib app c).body = .success resp
        ∧ c.Body = .ok rawBody
        ∧ resp.Status = "success"
        ∧ resp.Metadata.sensitive_data_detected
            = decide ((DetectSensitiveData app.validator rawBody).length > 0))
    ∧ (webhookHandler lib app c').dispatched = true
    ∧ (webhookHandler lib app c').status = 200
    ∧ (∃ resp' rawBody', (webhookHandler lib app c').body = .success resp'
        ∧ c'.Body = .ok rawBody'
        ∧ resp'.Status = "success"
        ∧ resp'.Metadata.sensitive_data_detected
            = decide ((DetectSensitiveData app.validator rawBody').length > 0))
    ∧ (webhookHandler lib app c').body.withoutSensitiveFlag
        = (webhookHandler lib app c).body.withoutSensitiveFlag := by
  obtain ⟨rawBody, payload, hb, hj, h1, h2, h3⟩ := admitted_reply lib app c hpass
  obtain ⟨rawBody', payload', hb', hj', h1', h2', h3'⟩ := admitted_reply lib app c' hpass'
  have hp : payload' = payload := by
    have := hpayload rawBody rawBody' hb hb'
    rw [hj, hj'] at this
    cases this
    rfl
  subst hp
  refine ⟨h1, h2, ⟨_, rawBody, h3, hb, rfl, rfl⟩, h1', h2', ⟨_, rawBody', h3', hb', rfl, rfl⟩, ?_⟩
  rw [h3, h3', hdelivery, hevent, hnow, helapsed]
  rfl


/-! ## Header validation -/

namespace Regex

theorem accepts_chr (a : Char) (w : List Char) : (chr a).Accepts w ↔ w = [a] := by
  simp only [chr, Accepts, beq_iff_eq]
  constructor
  · rintro ⟨c, rfl, rfl⟩; rfl
  · rintro rfl; exact ⟨a, rfl, rfl⟩

theorem accepts_times (p : Char → Bool) (n : Nat) (w : List Char) :
    (times p n).Accepts w ↔ w.length = n ∧ ∀ c ∈ w, p c = true := by
  induction n generalizing w with
  | zero =>
    simp only [times, Accepts]
    constructor
    · rintro rfl; simp
    · rintro ⟨h, -⟩; exact List.length_eq_zero.mp h
  | succ n ih =>
    simp only [times, Accepts, ih]
    constructor
    · rintro ⟨u, v, rfl, ⟨c, rfl, hc⟩, hv, hp⟩
      refine ⟨by simp [hv], ?_⟩
      intro x hx
      simp only [List.singleton_append, List.mem_cons] at hx
      rcases hx with rfl | hx
      · exact hc
      · exact hp x hx
    · rintro ⟨hl, hp⟩
      cases w with
      | nil => simp at hl
      | cons c cs =>
        refine ⟨[c], cs, rfl, ⟨c, rfl, hp c (List.mem_cons_self _ _)⟩, by simpa using hl, ?_⟩
        exact fun x hx => hp x (List.mem_cons_of_mem _ hx)

theorem accepts_some (p : Char → Bool) (w : List Char) :
    (some p).Accepts w ↔ w ≠ [] ∧ ∀ c ∈ w, p c = true := by
  simp only [some, Accepts]
  constructor
  · rintro ⟨u, v, rfl, ⟨c, rfl, hc⟩, hv⟩
    refine ⟨by simp, ?_⟩
    intro x hx
    simp only [List.singleton_append, List.mem_cons] at hx
    rcases hx with rfl | hx
    · exact hc
    · exact hv x hx
  · rintro ⟨hne, hp⟩
    cases w with
    | nil => exact absurd rfl hne
    | cons c cs =>
      exact ⟨[c], cs, rfl, ⟨c, rfl, hp c (List.mem_cons_self _ _)⟩,
        fun x hx => hp x (List.mem_cons_of_mem _ hx)⟩

theorem accepts_lit_aux (l : List Char) (w : List Char) :
    (l.foldr (fun a r => seq (chr a) r) empty).Accepts w ↔ w = l := by
  induction l generalizing w with
  | nil => simp [Accepts]
  | cons a l ih =>
    simp only [List.foldr_cons, Accepts.eq_3, accepts_chr, ih]
    constructor
    · rintro ⟨u, v, rfl, rfl, rfl⟩; rfl
    · rintro rfl; exact ⟨[a], l, rfl, rfl, rfl⟩

theorem accepts_lit (s : String) (w : List Char) : (lit s).Accepts w ↔ w = s.toList :=
  accepts_lit_aux s.toList w

theorem accepts_seq_chr (a : Char) (r : Regex) (w : List Char) :
    (seq (chr a) r).Accepts w ↔ ∃ v, w = a :: v ∧ r.Accepts v := by
  simp only [Accepts.eq_3, accepts_chr]
  constructor
  · rintro ⟨u, v, rfl, rfl, hv⟩; exact ⟨v, rfl, hv⟩
  · rintro ⟨v, rfl, hv⟩; exact ⟨[a], v, rfl, rfl, hv⟩

end Regex

theorem deliveryRe_accepts (w : List Char) : deliveryRe.Accepts w ↔ IsCanonicalUUID w := by
  unfold deliveryRe IsCanonicalUUID IsLowerHex
  simp only [Regex.Accepts.eq_3, Regex.accepts_times, Regex.accepts_chr]
  constructor
  · rintro ⟨a, _, rfl, ⟨ha, ha'⟩, _, _, rfl, rfl, b, _, rfl, ⟨hb, hb'⟩, _, _, rfl, rfl,
      c, _, rfl, ⟨hc, hc'⟩, _, _, rfl, rfl, d, _, rfl, ⟨hd, hd'⟩, _, e, rfl, rfl, he, he'⟩
    exact ⟨a, b, c, d, e, by simp, ha, hb, hc, hd, he, ha', hb', hc', hd', he'⟩
  · rintro ⟨a, b, c, d, e, rfl, ha, hb, hc, hd, he, ha', hb', hc', hd', he'⟩
    exact ⟨a, _, rfl, ⟨ha, ha'⟩, _, _, rfl, rfl, b, _, rfl, ⟨hb, hb'⟩, _, _, rfl, rfl,
      c, _, rfl, ⟨hc, hc'⟩, _, _, rfl, rfl, d, _, rfl, ⟨hd, hd'⟩, _, e, rfl, rfl, he, he'⟩

theorem signatureRe_accepts (w : List Char) : signatureRe.Accepts w ↔ IsSha256Signature w := by
  unfold signatureRe IsSha256Signature IsLowerHex
  simp only [Regex.Accepts.eq_3, Regex.accepts_times, Regex.accepts_lit]
  constructor
  · rintro ⟨_, h, rfl, rfl, hl, hp⟩; exact ⟨h, rfl, hl, hp⟩
  · rintro ⟨h, rfl, hl, hp⟩; exact ⟨_, h, rfl, rfl, hl, hp⟩

theorem userAgentRe_accepts (w : List Char) : userAgentRe.Accepts w ↔ IsHookshotAgent w := by
  unfold userAgentRe IsHookshotAgent IsLowerHex
  simp only [Regex.Accepts.eq_3, Regex.accepts_some, Regex.accepts_lit]
  constructor
  · rintro ⟨_, h, rfl, rfl, hl, hp⟩; exact ⟨h, rfl, hl, hp⟩
  · rintro ⟨h, rfl, hl, hp⟩; exact ⟨_, h, rfl, rfl, hl, hp⟩


/-- C6: `ValidateHeaders` returns nil exactly when the four required keys are
present, the delivery identifier is a canonical 8-4-4-4-12 lower-case
hexadecimal UUID (the whole value), the signature is `sha256=` followed by
exactly 64 characters of `[0-9a-f]` and the user-agent is `GitHub-Hookshot/`
followed by one or more characters of `[0-9a-f]`.  Otherwise it returns an
error: a missing header is reported before any format error, and the format
errors come in the order delivery, signature, user-agent. -/
theorem validateHeaders_spec (headers : List (String × String)) :
    (ValidateHeaders headers = none ↔
      (∀ key ∈ requiredHeaders, (headers.lookup key).isSome = true)
      ∧ IsCanonicalUUID ((headers.lookup "X-Github-Delivery").getD "").toList
      ∧ IsSha256Signature ((headers.lookup "X-Hub-Signature-256").getD "").toList
      ∧ IsHookshotAgent ((headers.lookup "User-Agent").getD "").toList)
    ∧ ((∃ key ∈ requiredHeaders, headers.lookup key = none) →
        ∃ missing ∈ requiredHeaders, headers.lookup missing = none
          ∧ ValidateHeaders headers = some ("missing required header: " ++ missing))
    ∧ ((∀ key ∈ requiredHeaders, (headers.lookup key).isSome = true) →
        (¬IsCanonicalUUID ((headers.lookup "X-Github-Delivery").getD "").toList →
          ValidateHeaders headers = some "invalid X-Github-Delivery format")
        ∧ (IsCanonicalUUID ((headers.lookup "X-Github-Delivery").getD "").toList →
          ¬IsSha256Signature ((headers.lookup "X-Hub-Signature-256").getD "").toList →
          ValidateHeaders headers = some "invalid X-Hub-Signature-256 format")
        ∧ (IsCanonicalUUID ((headers.lookup "X-Github-Delivery").getD "").toList →
          IsSha256Signature ((headers.lookup "X-Hub-Signature-256").getD "").toList →
          ¬IsHookshotAgent ((headers.lookup "User-Agent").getD "").toList →
          ValidateHeaders headers = some "invalid User-Agent format")) := by
  have hd : ∀ w, deliveryRe.fullMatch w = true ↔ IsCanonicalUUID w := fun w => by
    rw [Regex.fullMatch_iff, deliveryRe_accepts]
  have hs : ∀ w, signatureRe.fullMatch w = true ↔ IsSha256Signature w := fun w => by
    rw [Regex.fullMatch_iff, signatureRe_accepts]
  have hu : ∀ w, userAgentRe.fullMatch w = true ↔ IsHookshotAgent w := fun w => by
    rw [Regex.fullMatch_iff, userAgentRe_accepts]
  cases hf : requiredHeaders.find? (fun header => (headers.lookup header).isNone) with
  | some header =>
    have hmem := List.mem_of_find?_eq_some hf
    have hnone : headers.lookup header = none := by
      simpa using List.find?_some hf
    have hval : ValidateHeaders headers = some ("missing required header: " ++ header) := by
      simp only [ValidateHeaders, hf]
    refine ⟨?_, fun _ => ⟨header, hmem, hnone, hval⟩, ?_⟩
    · rw [hval]
      simp only [false_iff, not_and, reduceCtorEq]
      intro hall
      have := hall header hmem
      simp [hnone] at this
    · intro hall
      have := hall header hmem
      simp [hnone] at this
  | none =>
    have hall : ∀ key ∈ requiredHeaders, (headers.lookup key).isSome = true := by
      rw [List.find?_eq_none] at hf
      intro key hk
      have := hf key hk
      cases h : headers.lookup key <;> simp [h] at this ⊢
    have hval : ValidateHeaders headers =
        if !deliveryRe.fullMatch ((headers.lookup "X-Github-Delivery").getD "").toList then
          some "invalid X-Github-Delivery format"
        else if !signatureRe.fullMatch ((headers.lookup "X-Hub-Signature-256").getD "").toList then
          some "invalid X-Hub-Signature-256 format"
        else if !userAgentRe.fullMatch ((headers.lookup "User-Agent").getD "").toList then
          some "invalid User-Agent format"
        else none := by
      simp only [ValidateHeaders, hf]
    refine ⟨?_, ?_, fun _ => ⟨?_, ?_, ?_⟩⟩
    · rw [hval, ← hd, ← hs, ← hu]
      cases deliveryRe.fullMatch ((headers.lookup "X-Github-Delivery").getD "").toList <;>
      cases signatureRe.fullMatch ((headers.lookup "X-Hub-Signature-256").getD "").toList <;>
      cases userAgentRe.fullMatch ((headers.lookup "User-Agent").getD "").toList <;>
      (simp only [Bool.not_true, Bool.not_false, Bool.false_eq_true, if_false, if_true,
        and_true, and_false, false_and, reduceCtorEq, iff_false, not_false_eq_true,
        true_iff, not_true_eq_false]
       try exact hall)
    · rintro ⟨key, hk, hnone⟩
      have := hall key hk
      simp [hnone] at this
    · intro h1
      rw [← hd, Bool.not_eq_true] at h1
      rw [hval, h1]; rfl
    · intro h1 h2
      rw [← hd] at h1
      rw [← hs, Bool.not_eq_true] at h2
      rw [hval, h1, h2]; rfl
    · intro h1 h2 h3
      rw [← hd] at h1
      rw [← hs] at h2
      rw [← hu, Bool.not_eq_true] at h3
      rw [hval, h1, h2, h3]; rfl

/-- C6 (witness): the well-formed sample headers. -/
theorem validateHeaders_spec_witness :
    ValidateHeaders (sampleHeaders "push" zeroSignature) = none
    ∧ (∀ key ∈ requiredHeaders, ((sampleHeaders "push" zeroSignature).lookup key).isSome = true)
    ∧ IsCanonicalUUID
        (((sampleHeaders "push" zeroSignature).lookup "X-Github-Delivery").getD "").toList
    ∧ IsSha256Signature
        (((sampleHeaders "push" zeroSignature).lookup "X-Hub-Signature-256").getD "").toList
    ∧ IsHookshotAgent (((sampleHeaders "push" zeroSignature).lookup "User-Agent").getD "").toList :=
  ⟨by decide, (validateHeaders_spec (sampleHeaders "push" zeroSignature)).1.mp (by decide)⟩


/-! ## Sanitizer: repeated application -/

namespace Regex

theorem removeAll_sublist (r : Regex) : ∀ (l : List Char) (n : Nat),
    (removeAll r n l).Sublist l
  | [], n => by cases n <;> simp [removeAll]
  | c :: cs, n + 1 => by
    simp only [removeAll]
    exact (removeAll_sublist r cs n).cons c
  | c :: cs, 0 => by
    unfold removeAll
    split
    · exact (removeAll_sublist r cs _).cons c
    · exact (removeAll_sublist r cs 0).cons₂ c

theorem removeAll_of_no_match (r : Regex) : ∀ l : List Char,
    (∀ t, t <:+ l → r.ends t = []) → removeAll r 0 l = l
  | [], _ => rfl
  | c :: cs, h => by
    have h0 : r.firstMatchLen (c :: cs) = none := by
      simp [firstMatchLen, h (c :: cs) (List.suffix_refl _)]
    have ih := removeAll_of_no_match r cs
      (fun t ht => h t (ht.trans (List.suffix_cons c cs)))
    unfold removeAll
    simp only [h0, ih]

theorem no_match_of_removeAll (r : Regex) (hr : NonEmptyMatches r) : ∀ l : List Char,
    removeAll r 0 l = l → ∀ t, t <:+ l → r.ends t = []
  | [], _, t, ht => by
    have : t = [] := List.eq_nil_of_suffix_nil ht
    subst this
    cases h : r.ends [] with
    | nil => rfl
    | cons a as =>
      have := hr [] a (by simp [h])
      simp at this
  | c :: cs, h, t, ht => by
    cases he : r.ends (c :: cs) with
    | nil =>
      have h0 : r.firstMatchLen (c :: cs) = none := by simp [firstMatchLen, he]
      unfold removeAll at h
      simp only [h0, List.cons.injEq, true_and] at h
      rcases List.suffix_cons_iff.mp ht with rfl | ht'
      · exact he
      · exact no_match_of_removeAll r hr cs h t ht'
    | cons a as =>
      exfalso
      have hlt := hr (c :: cs) a (by simp [he])
      have h0 : r.firstMatchLen (c :: cs) = Option.some ((c :: cs).length - a.length) := by
        simp [firstMatchLen, he]
      obtain ⟨k, hk⟩ : ∃ k, (c :: cs).length - a.length = k + 1 :=
        ⟨(c :: cs).length - a.length - 1, by omega⟩
      rw [hk] at h0
      unfold removeAll at h
      simp only [h0] at h
      have := (removeAll_sublist r cs k).length_le
      rw [h] at this
      simp at this

theorem nonEmptyMatches_of_not_accepts_nil (r : Regex) (h : ¬r.Accepts []) :
    NonEmptyMatches r := by
  intro s rest hmem
  obtain ⟨pre, rfl, hpre⟩ := (mem_ends r s rest).mp hmem
  cases pre with
  | nil => exact absurd hpre h
  | cons a as => simp only [List.cons_append, List.length_cons, List.length_append]; omega

theorem firstMatchLen_succ (r : Regex) (hr : NonEmptyMatches r) (s : List Char)
    (h : r.ends s ≠ []) : ∃ k, r.firstMatchLen s = Option.some (k + 1) := by
  cases he : r.ends s with
  | nil => exact absurd he h
  | cons a as =>
    have hlt := hr s a (by simp [he])
    exact ⟨s.length - a.length - 1, by
      simp only [firstMatchLen, he, List.head?_cons, Option.map_some', Option.some.injEq]
      omega⟩

end Regex

theorem tagRe_accepts (w : List Char) :
    tagRe.Accepts w ↔ ∃ m, w = '<' :: (m ++ ['>']) ∧ ∀ c ∈ m, c ≠ '>' := by
  unfold tagRe
  simp only [Regex.Accepts.eq_3, Regex.accepts_chr, Regex.Accepts.eq_5, bne_iff_ne, ne_eq]
  constructor
  · rintro ⟨_, _, rfl, rfl, m, _, rfl, hm, rfl⟩
    exact ⟨m, rfl, hm⟩
  · rintro ⟨m, rfl, hm⟩
    exact ⟨_, _, rfl, rfl, m, _, rfl, hm, rfl⟩

theorem split_at_first (a : Char) : ∀ l : List Char, a ∈ l →
    ∃ m rest, l = m ++ a :: rest ∧ ∀ c ∈ m, c ≠ a
  | [], h => by simp at h
  | c :: cs, h => by
    by_cases hc : c = a
    · subst hc; exact ⟨[], cs, rfl, by simp⟩
    · have hmem : a ∈ cs := by
        rcases List.mem_cons.mp h with h | h
        · exact absurd h.symm hc
        · exact h
      obtain ⟨m, rest, rfl, hm⟩ := split_at_first a cs hmem
      refine ⟨c :: m, rest, rfl, ?_⟩
      intro x hx
      rcases List.mem_cons.mp hx with rfl | hx
      · exact hc
      · exact hm x hx

theorem tagRe_ends_ne_nil_iff (c : Char) (cs : List Char) :
    tagRe.ends (c :: cs) ≠ [] ↔ c = '<' ∧ '>' ∈ cs := by
  constructor
  · intro h
    obtain ⟨rest, hrest⟩ := List.exists_mem_of_ne_nil _ h
    obtain ⟨pre, hpre, hacc⟩ := (Regex.mem_ends _ _ _).mp hrest
    obtain ⟨m, rfl, -⟩ := (tagRe_accepts pre).mp hacc
    simp only [List.cons_append, List.cons.injEq] at hpre
    obtain ⟨rfl, rfl⟩ := hpre
    simp
  · rintro ⟨rfl, hmem⟩
    obtain ⟨m, rest, rfl, hm⟩ := split_at_first '>' cs hmem
    have : rest ∈ tagRe.ends ('<' :: (m ++ '>' :: rest)) :=
      (Regex.mem_ends _ _ _).mpr ⟨'<' :: (m ++ ['>']), by simp, (tagRe_accepts _).mpr ⟨m, rfl, hm⟩⟩
    exact List.ne_nil_of_mem this

theorem tagRe_nonEmptyMatches : Regex.NonEmptyMatches tagRe := by
  apply Regex.nonEmptyMatches_of_not_accepts_nil
  rw [tagRe_accepts]
  rintro ⟨m, h, -⟩
  cases h

theorem noTag_removeAll_tagRe : ∀ (l : List Char) (n : Nat), NoTag (tagRe.removeAll n l)
  | [], n => by cases n <;> simp [Regex.removeAll, NoTag]
  | c :: cs, n + 1 => by
    simp only [Regex.removeAll]
    exact noTag_removeAll_tagRe cs n
  | c :: cs, 0 => by
    by_cases h : tagRe.ends (c :: cs) = []
    · have h0 : tagRe.firstMatchLen (c :: cs) = none := by simp [Regex.firstMatchLen, h]
      unfold Regex.removeAll
      simp only [h0]
      refine List.pairwise_cons.mpr ⟨?_, noTag_removeAll_tagRe cs 0⟩
      rintro b hb ⟨rfl, rfl⟩
      have hmem : '>' ∈ cs := (Regex.removeAll_sublist tagRe cs 0).subset hb
      exact ((tagRe_ends_ne_nil_iff '<' cs).mpr ⟨rfl, hmem⟩) h
    · obtain ⟨k, hk⟩ := Regex.firstMatchLen_succ tagRe tagRe_nonEmptyMatches _ h
      unfold Regex.removeAll
      simp only [hk]
      exact noTag_removeAll_tagRe cs k

theorem noTag_of_sublist {l l' : List Char} (h : l'.Sublist l) (hl : NoTag l) : NoTag l' :=
  List.Pairwise.sublist h hl

theorem tagRe_no_match_of_noTag (l : List Char) (hl : NoTag l) :
    ∀ t, t <:+ l → tagRe.ends t = [] := by
  intro t ht
  cases t with
  | nil => rfl
  | cons c cs =>
    by_contra hne
    obtain ⟨rfl, hmem⟩ := (tagRe_ends_ne_nil_iff c cs).mp hne
    have := noTag_of_sublist ht.sublist hl
    exact (List.pairwise_cons.mp this).1 '>' hmem ⟨rfl, rfl⟩


theorem toLower_eq_lt (c : Char) (h : c.toLower = '<') : c = '<' := by
  unfold Char.toLower at h
  simp only at h
  split at h
  · rename_i hu
    exfalso
    generalize c.toNat = n at h hu
    obtain ⟨h1, h2⟩ := hu
    interval_cases n <;> revert h <;> decide
  · exact h

theorem scriptBlockRe_accepts (w : List Char) (h : scriptBlockRe.Accepts w) :
    ∃ cs, w = '<' :: cs ∧ '>' ∈ cs := by
  have hlit : Regex.foldLit "<script" =
      .seq (Regex.foldChr '<') (Regex.foldLit "script") := rfl
  unfold scriptBlockRe at h
  rw [hlit] at h
  simp only [Regex.Accepts.eq_3, Regex.accepts_chr] at h
  obtain ⟨_, _, rfl, ⟨_, u, rfl, hc, -⟩, _, _, rfl, -, _, _, rfl, rfl, -⟩ := h
  simp only [Regex.foldChr, Regex.Accepts] at hc
  obtain ⟨c, rfl, hc⟩ := hc
  have hc' : c = '<' := by
    simp only [Bool.or_eq_true, Bool.and_eq_true, beq_iff_eq] at hc
    rcases hc with (hc | ⟨hc, -⟩) | ⟨hc, -⟩
    · exact toLower_eq_lt c hc
    · exact absurd hc (by decide)
    · exact absurd hc (by decide)
  subst hc'
  exact ⟨_, rfl, by simp⟩

theorem scriptBlockRe_no_match_of_noTag (l : List Char) (hl : NoTag l) :
    ∀ t, t <:+ l → scriptBlockRe.ends t = [] := by
  intro t ht
  by_contra hne
  obtain ⟨rest, hrest⟩ := List.exists_mem_of_ne_nil _ hne
  obtain ⟨pre, rfl, hacc⟩ := (Regex.mem_ends _ _ _).mp hrest
  obtain ⟨cs, rfl, hmem⟩ := scriptBlockRe_accepts pre hacc
  have := noTag_of_sublist ht.sublist hl
  exact (List.pairwise_cons.mp this).1 '>' (List.mem_append_left _ hmem) ⟨rfl, rfl⟩

theorem removeAll_controlRe : ∀ l : List Char,
    controlRe.removeAll 0 l = l.filter (fun c => !isControl c)
  | [] => rfl
  | c :: cs => by
    unfold Regex.removeAll
    by_cases hc : isControl c = true
    · have : controlRe.firstMatchLen (c :: cs) = some (0 + 1) := by
        simp [Regex.firstMatchLen, controlRe, Regex.ends, hc]
      simp only [this, List.filter_cons, hc, Bool.not_true, Bool.false_eq_true, if_false]
      exact removeAll_controlRe cs
    · have : controlRe.firstMatchLen (c :: cs) = none := by
        simp [Regex.firstMatchLen, controlRe, Regex.ends, hc]
      simp only [this, List.filter_cons, hc, Bool.not_false, if_true, List.cons.injEq, true_and]
      exact removeAll_controlRe cs

theorem dropWhile_concat_neg (p : Char → Bool) (a : Char) (ha : ¬p a = true) :
    ∀ l : List Char, (l ++ [a]).dropWhile p = l.dropWhile p ++ [a]
  | [] => by simp [List.dropWhile, ha]
  | c :: cs => by
    by_cases hc : p c = true
    · simp only [List.cons_append, List.dropWhile_cons, hc, if_true]
      exact dropWhile_concat_neg p a ha cs
    · simp [List.dropWhile_cons, hc]

theorem trimSpace_eq (s : List Char) :
    trimSpace s = (s.dropWhile isSpace).rdropWhile isSpace := rfl

theorem trimSpace_sublist (s : List Char) : (trimSpace s).Sublist s := by
  rw [trimSpace_eq]
  exact (List.rdropWhile_prefix isSpace _).sublist.trans (List.dropWhile_sublist isSpace)

theorem trimSpace_idempotent (s : List Char) : trimSpace (trimSpace s) = trimSpace s := by
  rw [trimSpace_eq s]
  generalize hd : s.dropWhile isSpace = d
  have hhead : ∀ a d', d = a :: d' → ¬isSpace a = true := by
    intro a d' h
    have := List.head_dropWhile_not isSpace s (by rw [hd, h]; simp)
    simpa [hd, h] using this
  cases d with
  | nil => simp [trimSpace_eq, List.rdropWhile_nil]
  | cons a d' =>
    have ha := hhead a d' rfl
    have hr : (a :: d').rdropWhile isSpace = a :: d'.rdropWhile isSpace := by
      simp only [List.rdropWhile, List.reverse_cons]
      rw [dropWhile_concat_neg isSpace a ha]
      simp
    rw [hr, trimSpace_eq]
    have : (a :: d'.rdropWhile isSpace).dropWhile isSpace = a :: d'.rdropWhile isSpace := by
      simp [List.dropWhile_cons, ha]
    rw [this, ← hr, List.rdropWhile_idempotent]


theorem search_eq_false_iff (r : Regex) : ∀ l : List Char,
    r.search l = false ↔ ∀ t, t <:+ l → r.ends t = []
  | [] => by
    simp only [Regex.search, Bool.not_eq_false', List.isEmpty_iff, List.suffix_nil]
    constructor
    · rintro h t rfl; exact h
    · intro h; exact h [] rfl
  | c :: cs => by
    simp only [Regex.search, Bool.or_eq_false_iff, Bool.not_eq_false', List.isEmpty_iff,
      search_eq_false_iff r cs, List.suffix_cons_iff]
    constructor
    · rintro ⟨h1, h2⟩ t (rfl | ht)
      · exact h1
      · exact h2 t ht
    · intro h
      exact ⟨h _ (Or.inl rfl), fun t ht => h t (Or.inr ht)⟩

theorem javascriptRe_nonEmptyMatches : Regex.NonEmptyMatches javascriptRe := by
  apply Regex.nonEmptyMatches_of_not_accepts_nil
  intro h
  have : [] ∈ javascriptRe.ends [] := (Regex.mem_ends _ _ _).mpr ⟨[], rfl, h⟩
  revert this
  decide

/-- The result of `sanitizeChars` holds no tag and no control character of the
class removed, and is trimmed. -/
theorem sanitizeChars_clean (s : List Char) :
    NoTag (sanitizeChars s)
    ∧ (∀ c ∈ sanitizeChars s, isControl c = false)
    ∧ trimSpace (sanitizeChars s) = sanitizeChars s := by
  unfold sanitizeChars
  simp only
  refine ⟨?_, ?_, trimSpace_idempotent _⟩
  · apply noTag_of_sublist (trimSpace_sublist _)
    apply noTag_of_sublist (Regex.removeAll_sublist _ _ _)
    apply noTag_of_sublist (Regex.removeAll_sublist _ _ _)
    exact noTag_removeAll_tagRe _ 0
  · intro c hc
    have := (trimSpace_sublist _).subset hc
    rw [removeAll_controlRe] at this
    simpa using (List.mem_filter.mp this).2

/-- A second application of `sanitizeChars` changes nothing exactly when the
first result holds no match of `(?i)javascript:`. -/
theorem sanitizeChars_twice_iff (s : List Char) :
    sanitizeChars (sanitizeChars s) = sanitizeChars s ↔
      javascriptRe.search (sanitizeChars s) = false := by
  obtain ⟨htag, hctl, htrim⟩ := sanitizeChars_clean s
  generalize sanitizeChars s = t at htag hctl htrim
  have h1 : scriptBlockRe.removeAll 0 t = t :=
    Regex.removeAll_of_no_match _ _ (scriptBlockRe_no_match_of_noTag t htag)
  have h2 : tagRe.removeAll 0 t = t :=
    Regex.removeAll_of_no_match _ _ (tagRe_no_match_of_noTag t htag)
  have hstep : sanitizeChars t =
      trimSpace (controlRe.removeAll 0 (javascriptRe.removeAll 0 t)) := by
    simp only [sanitizeChars, h1, h2]
  rw [hstep, search_eq_false_iff]
  constructor
  · intro h
    apply Regex.no_match_of_removeAll _ javascriptRe_nonEmptyMatches
    have s1 := trimSpace_sublist (controlRe.removeAll 0 (javascriptRe.removeAll 0 t))
    have s2 := Regex.removeAll_sublist controlRe (javascriptRe.removeAll 0 t) 0
    have s3 := Regex.removeAll_sublist javascriptRe t 0
    rw [h] at s1
    have hlen : (javascriptRe.removeAll 0 t).length = t.length :=
      le_antisymm s3.length_le ((s1.trans s2).length_le)
    exact s3.eq_of_length hlen
  · intro h
    rw [Regex.removeAll_of_no_match _ _ h, removeAll_controlRe]
    have : t.filter (fun c => !isControl c) = t := by
      rw [List.filter_eq_self]
      intro c hc
      simp [hctl c hc]
    rw [this, htrim]

theorem sanitizeString_toList (s : String) :
    (sanitizeString s).toList = sanitizeChars s.toList := rfl

/-- A second application of `sanitizeString` changes nothing exactly when the
first result holds no match of `(?i)javascript:`. -/
theorem sanitizeString_twice_iff (s : String) :
    sanitizeString (sanitizeString s) = sanitizeString s ↔
      javascriptRe.search (sanitizeString s).toList = false := by
  rw [sanitizeString_toList, ← sanitizeChars_twice_iff]
  constructor
  · intro h
    have := congrArg String.toList h
    simpa only [sanitizeString_toList] using this
  · intro h
    unfold sanitizeString
    simp only [String.toList] at h ⊢
    rw [h]


theorem sanitizeString_twice_iff_free (s : String) :
    sanitizeString (sanitizeString s) = sanitizeString s ↔
      javascriptFree (sanitizeString s) = true := by
  rw [sanitizeString_twice_iff]
  unfold javascriptFree
  cases javascriptRe.search (sanitizeString s).toList <;> simp

mutual
theorem sanitizePayload_twice_iff : ∀ m : List (String × Node),
    SanitizePayload (SanitizePayload m) = SanitizePayload m ↔
      allStringsFields javascriptFree (SanitizePayload m) = true
  | [] => by simp [SanitizePayload, allStringsFields]
  | (k, .str s) :: rest => by
    simp only [SanitizePayload, allStringsFields, List.cons.injEq, Prod.mk.injEq, true_and,
      Node.str.injEq, Bool.and_eq_true, sanitizeString_twice_iff_free,
      sanitizePayload_twice_iff rest]
  | (k, .obj m) :: rest => by
    simp only [SanitizePayload, allStringsFields, List.cons.injEq, Prod.mk.injEq, true_and,
      Node.obj.injEq, Bool.and_eq_true, sanitizePayload_twice_iff m,
      sanitizePayload_twice_iff rest]
  | (k, .arr a) :: rest => by
    simp only [SanitizePayload, allStringsFields, List.cons.injEq, Prod.mk.injEq, true_and,
      Node.arr.injEq, Bool.and_eq_true, sanitizeArray_twice_iff a,
      sanitizePayload_twice_iff rest]
  | (k, .other x) :: rest => by
    simp only [SanitizePayload, allStringsFields, List.cons.injEq, true_and,
      sanitizePayload_twice_iff rest]
theorem sanitizeArray_twice_iff : ∀ a : List Node,
    sanitizeArray (sanitizeArray a) = sanitizeArray a ↔
      allStringsItems javascriptFree (sanitizeArray a) = true
  | [] => by simp [sanitizeArray, allStringsItems]
  | .str s :: rest => by
    simp only [sanitizeArray, allStringsItems, List.cons.injEq,
      Node.str.injEq, Bool.and_eq_true, sanitizeString_twice_iff_free,
      sanitizeArray_twice_iff rest]
  | .obj m :: rest => by
    simp only [sanitizeArray, allStringsItems, List.cons.injEq,
      Node.obj.injEq, Bool.and_eq_true, sanitizePayload_twice_iff m,
      sanitizeArray_twice_iff rest]
  | .arr a :: rest => by
    simp only [sanitizeArray, allStringsItems, List.cons.injEq,
      Node.arr.injEq, Bool.and_eq_true, sanitizeArray_twice_iff a,
      sanitizeArray_twice_iff rest]
  | .other x :: rest => by
    simp only [sanitizeArray, allStringsItems, List.cons.injEq, true_and,
      sanitizeArray_twice_iff rest]
end

/-- Sanitization is idempotent wherever no `javascript:` match is left: for
every payload whose sanitized string leaves hold no match of
`(?i)javascript:`, `SanitizePayload (SanitizePayload T) = SanitizePayload T`,
and for every string whose sanitized form holds no such match a second
`sanitizeString` changes nothing. -/
theorem sanitize_idempotent_of_javascript_free (payload : List (String × Node))
    (h : allStringsFields javascriptFree (SanitizePayload payload) = true) :
    SanitizePayload (SanitizePayload payload) = SanitizePayload payload
    ∧ ∀ s : String, javascriptFree (sanitizeString s) = true →
        sanitizeString (sanitizeString s) = sanitizeString s :=
  ⟨(sanitizePayload_twice_iff payload).mpr h,
   fun s hs => (sanitizeString_twice_iff_free s).mpr hs⟩

/-- An instance: a payload with markup, a script block and a control character. -/
theorem sanitize_idempotent_of_javascript_free_witness :
    allStringsFields javascriptFree (SanitizePayload markupPayload) = true
    ∧ SanitizePayload (SanitizePayload markupPayload) = SanitizePayload markupPayload :=
  have h : allStringsFields javascriptFree (SanitizePayload markupPayload) = true := by
    simp only [markupPayload, SanitizePayload, sanitizeArray, allStringsFields, allStringsItems]
    decide
  ⟨h, (sanitize_idempotent_of_javascript_free markupPayload h).1⟩


/-- C4 (failing input): `sanitizeString` maps `javajavascript:script:` to
`javascript:` and `javascript:` to the empty string, so a second application
changes the result; the same holds for a payload with that string as a leaf. -/
theorem sanitize_twice_differs :
    sanitizeString "javajavascript:script:" = "javascript:"
    ∧ sanitizeString (sanitizeString "javajavascript:script:") = ""
    ∧ SanitizePayload [("message", .str "javajavascript:script:")]
        = [("message", .str "javascript:")]
    ∧ SanitizePayload (SanitizePayload [("message", .str "javajavascript:script:")])
        = [("message", .str "")] := by
  refine ⟨by decide, by decide, ?_, ?_⟩
  · simp only [SanitizePayload]
    rw [show sanitizeString "javajavascript:script:" = "javascript:" by decide]
  · simp only [SanitizePayload]
    rw [show sanitizeString "javajavascript:script:" = "javascript:" by decide,
      show sanitizeString "javascript:" = "" by decide]

/-! ## Evaluations at concrete requests -/

/-- C2 (counterexample): with `EnableSignatureVerify` unset, a request whose
signature does not verify is dispatched. -/
theorem dispatch_with_bad_signature :
    (webhookHandler sampleLib (NewApplication sampleLib unverifiedConfig)
        (sampleRequest (sampleHeaders "push" zeroSignature) emptyObjectBody githubAddress)).dispatched
      = true
    ∧ VerifySignature sampleLib (NewApplication sampleLib unverifiedConfig).validator
        emptyObjectBody zeroSignature = false := by
  decide

/-- C2 (witness): the signed push request from a GitHub address is dispatched
and meets every one of the conditions. -/
theorem dispatch_requires_checks_witness :
    (webhookHandler sampleLib (NewApplication sampleLib sampleConfig)
        (sampleRequest (sampleHeaders "push" pushSignature) pushBody githubAddress)).dispatched
      = true
    ∧ ∃ rawBody,
      (sampleRequest (sampleHeaders "push" pushSignature) pushBody githubAddress).Body
        = .ok rawBody
      ∧ ValidateHeaders
          (sampleRequest (sampleHeaders "push" pushSignature) pushBody githubAddress).headers
        = none
      ∧ (rawBody.utf8ByteSize : Int) ≤ maxSize (NewApplication sampleLib sampleConfig)
      ∧ ((NewApplication sampleLib sampleConfig).config.Security.EnableSignatureVerify = true →
          VerifySignature sampleLib (NewApplication sampleLib sampleConfig).validator rawBody
            ((sampleRequest (sampleHeaders "push" pushSignature) pushBody
              githubAddress).GetHeader "X-Hub-Signature-256") = true)
      ∧ VerifyIPAddress sampleLib (NewApplication sampleLib sampleConfig).validator
          (sampleRequest (sampleHeaders "push" pushSignature) pushBody githubAddress).ClientIP
        = true :=
  ⟨by decide, dispatch_requires_checks _ _ _ (by decide)⟩

/-- C3 (counterexample): with `EnableSignatureVerify` unset, a badly signed
request from a forbidden origin is answered 403 `FORBIDDEN_IP`, not
`INVALID_SIGNATURE`. -/
theorem unverified_bad_signature_forbidden_origin :
    VerifySignature sampleLib (NewApplication sampleLib unverifiedConfig).validator
        emptyObjectBody zeroSignature = false
    ∧ VerifyIPAddress sampleLib (NewApplication sampleLib unverifiedConfig).validator
        foreignAddress = false
    ∧ (webhookHandler sampleLib (NewApplication sampleLib unverifiedConfig)
        (sampleRequest (sampleHeaders "push" zeroSignature) emptyObjectBody foreignAddress)).status
      = 403
    ∧ (webhookHandler sampleLib (NewApplication sampleLib unverifiedConfig)
        (sampleRequest (sampleHeaders "push" zeroSignature) emptyObjectBody
          foreignAddress)).errorCode
      = some "FORBIDDEN_IP" := by
  decide

/-- C3 (witness): an oversized, badly signed request from a forbidden origin
fails first at the size check and is answered accordingly. -/
theorem first_failing_check_decides_witness :
    checkOrder.find? (fun k => k.fails sampleLib (NewApplication sampleLib zeroLimitConfig)
        (sampleRequest (sampleHeaders "push" zeroSignature) emptyObjectBody foreignAddress))
      = some .bodySize
    ∧ (webhookHandler sampleLib (NewApplication sampleLib zeroLimitConfig)
        (sampleRequest (sampleHeaders "push" zeroSignature) emptyObjectBody foreignAddress)).status
      = Check.status .bodySize
    ∧ (webhookHandler sampleLib (NewApplication sampleLib zeroLimitConfig)
        (sampleRequest (sampleHeaders "push" zeroSignature) emptyObjectBody
          foreignAddress)).errorCode
      = some (Check.code .bodySize)
    ∧ (webhookHandler sampleLib (NewApplication sampleLib zeroLimitConfig)
        (sampleRequest (sampleHeaders "push" zeroSignature) emptyObjectBody
          foreignAddress)).dispatched
      = false :=
  ⟨by decide, first_failing_check_decides _ _ _ _ (by decide)⟩


/-- C8 (counterexample): a request that lacks only the user-agent header is
answered `INVALID_HEADERS`, not `MISSING_HEADERS`. -/
theorem missing_user_agent_reply :
    (sampleRequest headersWithoutUserAgent emptyObjectBody githubAddress).Header.lookup
        "User-Agent" = none
    ∧ (webhookHandler sampleLib (NewApplication sampleLib sampleConfig)
        (sampleRequest headersWithoutUserAgent emptyObjectBody githubAddress)).errorCode
      = some "INVALID_HEADERS"
    ∧ (webhookHandler sampleLib (NewApplication sampleLib sampleConfig)
        (sampleRequest headersWithoutUserAgent emptyObjectBody githubAddress)).errorCode
      ≠ some "MISSING_HEADERS" := by
  decide

/-- C8 (witness): a request without the delivery identifier. -/
theorem missing_header_rejected_witness :
    "X-Github-Delivery" ∈ requiredHeaders
    ∧ (sampleRequest headersWithoutDelivery emptyObjectBody githubAddress).Header.lookup
        "X-Github-Delivery" = none
    ∧ (webhookHandler sampleLib (NewApplication sampleLib sampleConfig)
        (sampleRequest headersWithoutDelivery emptyObjectBody githubAddress)).invoked
          .VerifySignature = false
    ∧ (webhookHandler sampleLib (NewApplication sampleLib sampleConfig)
        (sampleRequest headersWithoutDelivery emptyObjectBody githubAddress)).status = 400
    ∧ (webhookHandler sampleLib (NewApplication sampleLib sampleConfig)
        (sampleRequest headersWithoutDelivery emptyObjectBody githubAddress)).errorCode
      = some "MISSING_HEADERS" :=
  have h := missing_header_rejected sampleLib (NewApplication sampleLib sampleConfig)
    (sampleRequest headersWithoutDelivery emptyObjectBody githubAddress) "X-Github-Delivery"
    (by decide) (by decide)
  ⟨by decide, by decide, h.1, (h.2.2.1 (by decide)).1, (h.2.2.1 (by decide)).2⟩

/-- C9 (witness): a correctly signed two-byte body under a limit of zero. -/
theorem oversized_body_rejected_witness :
    ((emptyObjectBody.utf8ByteSize : Int) > maxSize (NewApplication sampleLib zeroLimitConfig))
    ∧ (webhookHandler sampleLib (NewApplication sampleLib zeroLimitConfig)
        (sampleRequest (sampleHeaders "push" emptyObjectSignature) emptyObjectBody
          githubAddress)).status = 413
    ∧ (webhookHandler sampleLib (NewApplication sampleLib zeroLimitConfig)
        (sampleRequest (sampleHeaders "push" emptyObjectSignature) emptyObjectBody
          githubAddress)).errorCode = some "PAYLOAD_TOO_LARGE" :=
  have h := oversized_body_rejected sampleLib (NewApplication sampleLib zeroLimitConfig)
    (sampleRequest (sampleHeaders "push" emptyObjectSignature) emptyObjectBody githubAddress)
    emptyObjectBody (by decide) (by decide) (by decide) rfl
  ⟨by decide, (h.1 (by decide)).1, (h.1 (by decide)).2⟩

theorem noteRequest_passes (k : Check) :
    k.fails sampleLib (NewApplication sampleLib sampleConfig)
      (sampleRequest (sampleHeaders "push" noteSignature) noteBody githubAddress) = false := by
  cases k <;> decide

theorem escapedNoteRequest_passes (k : Check) :
    k.fails sampleLib (NewApplication sampleLib sampleConfig)
      (sampleRequest (sampleHeaders "push" escapedNoteSignature) escapedNoteBody githubAddress)
      = false := by
  cases k <;> decide

theorem sample_note_texts_agree :
    sampleLib.jsonUnmarshal escapedNoteBody = sampleLib.jsonUnmarshal noteBody := by
  simp only [sampleLib]
  rw [if_neg (by decide), if_neg (by decide), if_neg (by decide), if_pos trivial,
    if_neg (by decide), if_neg (by decide), if_pos trivial]

/-- C10 (witness): two signed requests whose bodies are two texts of the same
JSON value; the scanner flags the one with literal apostrophes and not the one
with escaped apostrophes, and the replies differ in the flag only. -/
theorem scan_never_blocks_witness :
    DetectSensitiveData (NewApplication sampleLib sampleConfig).validator noteBody
      = ["pattern_1"]
    ∧ DetectSensitiveData (NewApplication sampleLib sampleConfig).validator escapedNoteBody = []
    ∧ (webhookHandler sampleLib (NewApplication sampleLib sampleConfig)
        (sampleRequest (sampleHeaders "push" noteSignature) noteBody
          githubAddress)).sensitiveFlag = some true
    ∧ (webhookHandler sampleLib (NewApplication sampleLib sampleConfig)
        (sampleRequest (sampleHeaders "push" escapedNoteSignature) escapedNoteBody
          githubAddress)).sensitiveFlag = some false
    ∧ (webhookHandler sampleLib (NewApplication sampleLib sampleConfig)
        (sampleRequest (sampleHeaders "push" noteSignature) noteBody githubAddress)).status = 200
    ∧ (webhookHandler sampleLib (NewApplication sampleLib sampleConfig)
        (sampleRequest (sampleHeaders "push" escapedNoteSignature) escapedNoteBody
          githubAddress)).status = 200
    ∧ (webhookHandler sampleLib (NewApplication sampleLib sampleConfig)
        (sampleRequest (sampleHeaders "push" escapedNoteSignature) escapedNoteBody
          githubAddress)).body.withoutSensitiveFlag
      = (webhookHandler sampleLib (NewApplication sampleLib sampleConfig)
        (sampleRequest (sampleHeaders "push" noteSignature) noteBody
          githubAddress)).body.withoutSensitiveFlag := by
  have h := scan_never_blocks sampleLib (NewApplication sampleLib sampleConfig)
    (sampleRequest (sampleHeaders "push" noteSignature) noteBody githubAddress)
    (sampleRequest (sampleHeaders "push" escapedNoteSignature) escapedNoteBody githubAddress)
    noteRequest_passes escapedNoteRequest_passes rfl rfl rfl rfl
    (by
      intro rawBody rawBody' hb hb'
      have e1 : (Except.ok noteBody : Except String String) = .ok rawBody := hb
      have e2 : (Except.ok escapedNoteBody : Except String String) = .ok rawBody' := hb'
      cases e1
      cases e2
      exact sample_note_texts_agree)
  exact ⟨by decide, by decide, by decide, by decide, h.2.1, h.2.2.2.2.1, h.2.2.2.2.2.2⟩


/-! ## Event dispatch and reply status -/

/-- C13: `processWebhookEvent` returns no error for any event type and any
payload, whatever fields the payload has or lacks; hence no reply of the
handler carries status 500 or code `PROCESSING_ERROR`. -/
theorem dispatch_never_fails (lib : Lib) (eventType : String) (payload : List (String × Node))
    (app : Application) (c : Request) :
    (processWebhookEvent lib eventType payload).2 = none
    ∧ (webhookHandler lib app c).errorCode ≠ some "PROCESSING_ERROR"
    ∧ (webhookHandler lib app c).status ≠ 500 := by
  refine ⟨processWebhookEvent_snd lib eventType payload, ?_⟩
  cases hf : checkOrder.find? (fun k => k.fails lib app c) with
  | some k =>
    have hres := first_failure_result lib app c k hf
    rw [hres.1, hres.2.1]
    cases k <;> simp [Check.status, Check.code]
  | none =>
    obtain ⟨rawBody, payload', hb, hj, hm, hsz, hv, hs, hip⟩ :=
      passed_of_no_failure lib app c (all_checks_pass lib app c hf)
    rw [handler_admitted lib app c rawBody payload' hm hb hsz hv hs hip hj]
    simp [Result.errorCode]



theorem webhookHandler_eq_with (lib : Lib) (app : Application) (c : Request) :
    webhookHandler lib app c = webhookHandlerWith lib (processWebhookEvent lib) app c := rfl

theorem no_failure_of_passed (lib : Lib) (app : Application) (c : Request) (rawBody : String)
    (payload : List (String × Node))
    (hm : ¬(c.GetHeader "X-Github-Delivery" = "" ∨ c.GetHeader "X-Github-Event" = ""
      ∨ c.GetHeader "X-Hub-Signature-256" = ""))
    (hb : c.Body = .ok rawBody) (hsz : ¬(rawBody.utf8ByteSize : Int) > maxSize app)
    (hv : ValidateHeaders c.headers = none)
    (hs : ¬(app.config.Security.EnableSignatureVerify
      && !VerifySignature lib app.validator rawBody (c.GetHeader "X-Hub-Signature-256")) = true)
    (hip : ¬(!VerifyIPAddress lib app.validator c.ClientIP) = true)
    (hj : lib.jsonUnmarshal rawBody = .ok payload) (k : Check) :
    k.fails lib app c = false := by
  cases k
  · simp only [Check.fails, Bool.or_eq_false_iff, beq_eq_false_iff_ne]; tauto
  · simp only [Check.fails, hb]
  · simp only [Check.fails, hb, hsz, decide_False]
  · simp only [Check.fails, hv, Option.isSome]
  · simp only [Check.fails, hb]; simpa using hs
  · simp only [Check.fails]; simpa using hip
  · simp only [Check.fails, hb, hj]

theorem handlerWith_of_failure (lib : Lib)
    (d : String → List (String × Node) → List Effect × Option String)
    (app : Application) (c : Request) (k : Check)
    (h : checkOrder.find? (fun k => k.fails lib app c) = some k) :
    webhookHandlerWith lib d app c = webhookHandler lib app c := by
  rw [webhookHandler_eq_with]
  unfold webhookHandlerWith
  by_cases hm : c.GetHeader "X-Github-Delivery" = "" ∨ c.GetHeader "X-Github-Event" = ""
      ∨ c.GetHeader "X-Hub-Signature-256" = ""
  · simp only [if_pos hm]
  simp only [if_neg hm]
  cases hb : c.Body with
  | error e => rfl
  | ok rawBody =>
  simp only []
  by_cases hsz : (rawBody.utf8ByteSize : Int) > maxSize app
  · simp only [if_pos hsz]
  simp only [if_neg hsz]
  cases hv : ValidateHeaders c.headers with
  | some err => rfl
  | none =>
  simp only []
  by_cases hs : (app.config.Security.EnableSignatureVerify
      && !VerifySignature lib app.validator rawBody (c.GetHeader "X-Hub-Signature-256")) = true
  · simp only [if_pos hs]
  simp only [if_neg hs]
  by_cases hip : (!VerifyIPAddress lib app.validator c.ClientIP) = true
  · simp only [if_pos hip]
  simp only [if_neg hip]
  cases hj : lib.jsonUnmarshal rawBody with
  | error err => rfl
  | ok payload =>
    have := no_failure_of_passed lib app c rawBody payload hm hb hsz hv hs hip hj k
    rw [List.find?_some h] at this
    cases this

theorem handlerWith_admitted (lib : Lib)
    (d : String → List (String × Node) → List Effect × Option String)
    (app : Application) (c : Request) (rawBody : String) (payload : List (String × Node))
    (hpass : ∀ k : Check, k.fails lib app c = false)
    (hb : c.Body = .ok rawBody) (hj : lib.jsonUnmarshal rawBody = .ok payload) :
    ((d (c.GetHeader "X-Github-Event") (SanitizePayload payload)).2 = none →
        (webhookHandlerWith lib d app c).status = 200
        ∧ (webhookHandlerWith lib d app c).errorCode = none)
    ∧ (∀ err, (d (c.GetHeader "X-Github-Event") (SanitizePayload payload)).2 = some err →
        (webhookHandlerWith lib d app c).status = 500
        ∧ (webhookHandlerWith lib d app c).errorCode = some "PROCESSING_ERROR") := by
  obtain ⟨rawBody', payload', hb', hj', hm, hsz, hv, hs, hip⟩ :=
    passed_of_no_failure lib app c hpass
  rw [hb] at hb'
  cases hb'
  rw [hj] at hj'
  cases hj'
  constructor
  · intro hd
    unfold webhookHandlerWith
    simp only [if_neg hm, hb, if_neg hsz, hv, if_neg hs, if_neg hip, hj, hd]
    simp [Result.errorCode, reject]
  · intro err hd
    unfold webhookHandlerWith
    simp only [if_neg hm, hb, if_neg hsz, hv, if_neg hs, if_neg hip, hj, hd]
    simp [Result.errorCode, reject]


/-- C12: a reply to a request that fails a check carries the status and code of
that check (400 for missing or malformed headers and for an unreadable or
unparsable body, 413 `PAYLOAD_TOO_LARGE`, 401 `INVALID_SIGNATURE`, 403
`FORBIDDEN_IP`); when every check passes, an error of the event processor
gives 500 `PROCESSING_ERROR` and success gives 200.  Every error code goes
with one status, and a reply without error code has status 200. -/
theorem rejection_status_by_class (lib : Lib)
    (d : String → List (String × Node) → List Effect × Option String)
    (app : Application) (c : Request) :
    (∀ k, checkOrder.find? (fun k => k.fails lib app c) = some k →
        (webhookHandlerWith lib d app c).status = k.status
        ∧ (webhookHandlerWith lib d app c).errorCode = some k.code)
    ∧ checkOrder.map (fun k => (k.code, k.status)) =
        [("MISSING_HEADERS", 400), ("INVALID_PAYLOAD", 400), ("PAYLOAD_TOO_LARGE", 413),
         ("INVALID_HEADERS", 400), ("INVALID_SIGNATURE", 401), ("FORBIDDEN_IP", 403),
         ("INVALID_PAYLOAD", 400)]
    ∧ (checkOrder.find? (fun k => k.fails lib app c) = none →
        ∃ rawBody payload, c.Body = .ok rawBody ∧ lib.jsonUnmarshal rawBody = .ok payload
          ∧ ((d (c.GetHeader "X-Github-Event") (SanitizePayload payload)).2 = none →
              (webhookHandlerWith lib d app c).status = 200
              ∧ (webhookHandlerWith lib d app c).errorCode = none)
          ∧ (∀ err, (d (c.GetHeader "X-Github-Event") (SanitizePayload payload)).2 = some err →
              (webhookHandlerWith lib d app c).status = 500
              ∧ (webhookHandlerWith lib d app c).errorCode = some "PROCESSING_ERROR"))
    ∧ (∀ code, (webhookHandlerWith lib d app c).errorCode = some code →
        (webhookHandlerWith lib d app c).status = statusOfCode code)
    ∧ ((webhookHandlerWith lib d app c).errorCode = none →
        (webhookHandlerWith lib d app c).status = 200)
    ∧ webhookHandler lib app c = webhookHandlerWith lib (processWebhookEvent lib) app c := by
  have hfail : ∀ k, checkOrder.find? (fun k => k.fails lib app c) = some k →
      (webhookHandlerWith lib d app c).status = k.status
      ∧ (webhookHandlerWith lib d app c).errorCode = some k.code := by
    intro k hk
    rw [handlerWith_of_failure lib d app c k hk]
    exact ⟨(first_failure_result lib app c k hk).1, (first_failure_result lib app c k hk).2.1⟩
  have hpass : checkOrder.find? (fun k => k.fails lib app c) = none →
      ∃ rawBody payload, c.Body = .ok rawBody ∧ lib.jsonUnmarshal rawBody = .ok payload
        ∧ ((d (c.GetHeader "X-Github-Event") (SanitizePayload payload)).2 = none →
            (webhookHandlerWith lib d app c).status = 200
            ∧ (webhookHandlerWith lib d app c).errorCode = none)
        ∧ (∀ err, (d (c.GetHeader "X-Github-Event") (SanitizePayload payload)).2 = some err →
            (webhookHandlerWith lib d app c).status = 500
            ∧ (webhookHandlerWith lib d app c).errorCode = some "PROCESSING_ERROR") := by
    intro hf
    have hall := all_checks_pass lib app c hf
    obtain ⟨rawBody, payload, hb, hj, -⟩ := passed_of_no_failure lib app c hall
    exact ⟨rawBody, payload, hb, hj, handlerWith_admitted lib d app c rawBody payload hall hb hj⟩
  refine ⟨hfail, rfl, hpass, ?_, ?_, rfl⟩
  · intro code hcode
    cases hf : checkOrder.find? (fun k => k.fails lib app c) with
    | some k =>
      obtain ⟨h1, h2⟩ := hfail k hf
      rw [h2] at hcode
      cases hcode
      rw [h1]
      cases k <;> rfl
    | none =>
      obtain ⟨rawBody, payload, -, -, h1, h2⟩ := hpass hf
      cases hd : (d (c.GetHeader "X-Github-Event") (SanitizePayload payload)).2 with
      | none =>
        rw [(h1 hd).2] at hcode
        cases hcode
      | some err =>
        obtain ⟨h3, h4⟩ := h2 err hd
        rw [h4] at hcode
        cases hcode
        rw [h3]
        rfl
  · intro hnone
    cases hf : checkOrder.find? (fun k => k.fails lib app c) with
    | some k =>
      rw [(hfail k hf).2] at hnone
      cases hnone
    | none =>
      obtain ⟨rawBody, payload, -, -, h1, h2⟩ := hpass hf
      cases hd : (d (c.GetHeader "X-Github-Event") (SanitizePayload payload)).2 with
      | none => exact (h1 hd).1
      | some err =>
        rw [(h2 err hd).2] at hnone
        cases hnone

/-- C12 (witness): the signed push request handled with an event processor that
fails. -/
theorem rejection_status_by_class_witness :
    (webhookHandlerWith sampleLib failingDispatch (NewApplication sampleLib sampleConfig)
        (sampleRequest (sampleHeaders "push" pushSignature) pushBody githubAddress)).errorCode
      = some "PROCESSING_ERROR"
    ∧ (webhookHandlerWith sampleLib failingDispatch (NewApplication sampleLib sampleConfig)
        (sampleRequest (sampleHeaders "push" pushSignature) pushBody githubAddress)).status
      = 500 :=
  ⟨by decide,
   (rejection_status_by_class sampleLib failingDispatch (NewApplication sampleLib sampleConfig)
      (sampleRequest (sampleHeaders "push" pushSignature) pushBody githubAddress)).2.2.2.1
      "PROCESSING_ERROR" (by decide)⟩


/-! ## Sanitizer: what the result holds -/

/-- C17: the result of `sanitizeString` holds no markup tag: no `<` of it is
followed anywhere later by a `>`, so `<[^>]*>` matches nowhere in it, also for
nested or overlapping brackets such as `<<b>script>`. -/
theorem sanitizeString_no_tag (s : String) :
    NoTag (sanitizeString s).toList
    ∧ tagRe.search (sanitizeString s).toList = false
    ∧ (∀ pre mid post : List Char,
        (sanitizeString s).toList ≠ pre ++ '<' :: (mid ++ '>' :: post))
    ∧ sanitizeString "<<b>script>" = "script>" := by
  have hno : NoTag (sanitizeString s).toList := by
    rw [sanitizeString_toList]; exact (sanitizeChars_clean s.toList).1
  refine ⟨hno, ?_, ?_, by decide⟩
  · rw [search_eq_false_iff]
    exact tagRe_no_match_of_noTag _ hno
  · intro pre mid post h
    rw [h] at hno
    have h1 := (List.pairwise_append.mp hno).2.1
    exact (List.pairwise_cons.mp h1).1 '>' (by simp) ⟨rfl, rfl⟩

/-- C18 (failing inputs): `sanitizeString` deletes the matches of
`(?i)javascript:` in one pass and before the control characters, so the
scheme survives when it is interleaved with itself or with a control
character. -/
theorem javascript_scheme_survives :
    sanitizeString "javajavascript:script:" = "javascript:"
    ∧ sanitizeString "java\x00script:" = "javascript:"
    ∧ sanitizeString "JAVAjavascript:SCRIPT:" = "JAVASCRIPT:"
    ∧ javascriptRe.search (sanitizeString "javajavascript:script:").toList = true
    ∧ javascriptRe.search (sanitizeString "java\x00script:").toList = true := by
  decide

/-- C19 (failing input): `.` does not match a line feed, so a script block
whose body holds a line break is not matched by the first pattern; only its
two tags are deleted and the body stays.  A body on one line is removed. -/
theorem script_block_with_line_break_kept :
    sanitizeString "a<script>x\ny</script>b" = "ax\nyb"
    ∧ sanitizeString "a<script>xy</script>b" = "ab"
    ∧ sanitizeString "ab" = "ab" := by
  decide

/-- C15 (counterexample): C1 control characters pass through `sanitizeString`. -/
theorem c1_control_survives :
    sanitizeString (String.mk ['a', Char.ofNat 0x80, 'b']) = String.mk ['a', Char.ofNat 0x80, 'b']
    ∧ Char.ofNat 0x9F ∈ (sanitizeString (String.mk ['x', Char.ofNat 0x9F, 'y'])).toList := by
  decide

theorem char_eq_of_toNat (c : Char) (n : Nat) (h : c.toNat = n) : c = Char.ofNat n := by
  rw [← h, Char.ofNat_toNat]

/-- Every character of the result of `sanitizeString` is outside the removed
class: it is not U+007F, and if it is at most U+001F it is tab, line feed or
carriage return. -/
theorem sanitizeString_no_c0_control (s : String) (c : Char)
    (hc : c ∈ (sanitizeString s).toList) :
    c.toNat ≠ 0x7F ∧ (c.toNat ≤ 0x1F → c = '\t' ∨ c = '\n' ∨ c = '\r') := by
  rw [sanitizeString_toList] at hc
  have h := (sanitizeChars_clean s.toList).2.1 c hc
  simp only [isControl, Bool.or_eq_false_iff, decide_eq_false_iff_not, beq_eq_false_iff_ne,
    Bool.and_eq_false_iff, ne_eq] at h
  obtain ⟨⟨⟨⟨h1, h2⟩, h3⟩, h4⟩, h5⟩ := h
  refine ⟨h5, fun hle => ?_⟩
  have : c.toNat = 9 ∨ c.toNat = 10 ∨ c.toNat = 13 := by
    rcases h4 with h4 | h4 <;> omega
  rcases this with h | h | h
  · exact Or.inl (char_eq_of_toNat c 9 h)
  · exact Or.inr (Or.inl (char_eq_of_toNat c 10 h))
  · exact Or.inr (Or.inr (char_eq_of_toNat c 13 h))

/-- A text without tag, without a character of the removed control class,
without match of `(?i)javascript:` and without white space at either end is
returned as it is. -/
theorem sanitizeChars_fixed (t : List Char) (htag : NoTag t)
    (hctl : ∀ c ∈ t, isControl c = false) (hjs : javascriptRe.search t = false)
    (htrim : trimSpace t = t) : sanitizeChars t = t := by
  have h1 : scriptBlockRe.removeAll 0 t = t :=
    Regex.removeAll_of_no_match _ _ (scriptBlockRe_no_match_of_noTag t htag)
  have h2 : tagRe.removeAll 0 t = t :=
    Regex.removeAll_of_no_match _ _ (tagRe_no_match_of_noTag t htag)
  have h3 : javascriptRe.removeAll 0 t = t :=
    Regex.removeAll_of_no_match _ _ ((search_eq_false_iff _ _).mp hjs)
  have h4 : t.filter (fun c => !isControl c) = t := by
    rw [List.filter_eq_self]
    intro c hc
    simp [hctl c hc]
  simp only [sanitizeChars, h1, h2, h3, removeAll_controlRe, h4, htrim]

/-- C15 (amended): the result of `sanitizeString` holds no C0 control character
(U+0000 to U+001F, U+007F) other than tab, line feed and carriage return.  The
C1 control characters (U+0080 to U+009F) are outside the class the code
removes, and only U+0085 among them is white space for `strings.TrimSpace`: a
text without tag, without match of `(?i)javascript:`, without character of the
removed class and without white space at either end is returned as it is,
whatever C1 control characters it holds. -/
theorem sanitizeString_control_characters (s : String) :
    (∀ c ∈ (sanitizeString s).toList,
        c.toNat ≠ 0x7F ∧ (c.toNat ≤ 0x1F → c = '\t' ∨ c = '\n' ∨ c = '\r'))
    ∧ (NoTag s.toList → (∀ c ∈ s.toList, isControl c = false)
        → javascriptRe.search s.toList = false → trimSpace s.toList = s.toList
        → sanitizeString s = s)
    ∧ (∀ c : Char, 0x80 ≤ c.toNat → c.toNat ≤ 0x9F → isControl c = false)
    ∧ (∀ c : Char, 0x80 ≤ c.toNat → c.toNat ≤ 0x9F → (isSpace c = true ↔ c.toNat = 0x85)) := by
  refine ⟨fun c hc => sanitizeString_no_c0_control s c hc, ?_, ?_, ?_⟩
  · intro htag hctl hjs htrim
    unfold sanitizeString
    rw [sanitizeChars_fixed s.toList htag hctl hjs htrim]
    rfl
  · intro c h1 h2
    simp only [isControl, Bool.or_eq_false_iff, decide_eq_false_iff_not, beq_eq_false_iff_ne,
      Bool.and_eq_false_iff, ne_eq]
    refine ⟨⟨⟨⟨?_, ?_⟩, ?_⟩, ?_⟩, ?_⟩ <;> omega
  · intro c h1 h2
    simp only [isSpace, Bool.or_eq_true, Bool.and_eq_true, decide_eq_true_eq, beq_iff_eq]
    omega

/-- C15 (witness): a C1 control character inside a text stays; U+0085 at either
end is trimmed. -/
theorem sanitizeString_control_characters_witness :
    sanitizeString (String.mk ['a', Char.ofNat 0x80, 'b']) = String.mk ['a', Char.ofNat 0x80, 'b']
    ∧ sanitizeString (String.mk [Char.ofNat 0x85, 'a', 'b', Char.ofNat 0x85]) = "ab" :=
  ⟨(sanitizeString_control_characters (String.mk ['a', Char.ofNat 0x80, 'b'])).2.1
      (by unfold NoTag; decide) (by decide) (by decide) (by decide),
   by decide⟩


/-! ## Sensitive-content scanner -/

theorem detectFrom_eq (content : String) : ∀ (ps : List Regex) (i : Nat),
    detectFrom content i ps =
      ((ps.enumFrom i).filter (fun jp => jp.2.search content.toList)).map
        (fun jp => patternLabel (jp.1 + 1))
  | [], i => rfl
  | p :: ps, i => by
    unfold detectFrom
    by_cases hp : p.search content.toList = true
    · simp only [hp, if_true, List.enumFrom_cons, List.filter_cons, List.map_cons,
        detectFrom_eq content ps (i + 1), patternLabel]
    · simp only [hp, if_false, List.enumFrom_cons, List.filter_cons, Bool.false_eq_true,
        detectFrom_eq content ps (i + 1)]

theorem patternLabel_injOn (a b : Nat) (ha : a ≤ 7) (hb : b ≤ 7)
    (h : patternLabel a = patternLabel b) : a = b := by
  interval_cases a <;> interval_cases b <;> first | rfl | (exact absurd h (by decide))

/-- C14: the scanner built by `NewWebhookSecurityValidator` returns the
identifiers `pattern_k` of exactly the patterns that match, `k` being the
1-based position in the list of seven, in strictly increasing `k` and without
duplicates.  The result depends on the content only through which patterns
match, so it never carries matched text. -/
theorem detectSensitiveData_spec (lib : Lib) (config : SecurityConfig) (content : String) :
    ∃ ks : List Nat,
      DetectSensitiveData (NewWebhookSecurityValidator lib config) content = ks.map patternLabel
      ∧ ks.Pairwise (· < ·)
      ∧ (∀ k, k ∈ ks ↔ 1 ≤ k ∧ k ≤ 7 ∧
          ∃ p, sensitivePatternList[k - 1]? = some p ∧ p.search content.toList = true)
      ∧ (DetectSensitiveData (NewWebhookSecurityValidator lib config) content).Nodup
      ∧ (∀ content' : String,
          (∀ p ∈ sensitivePatternList, p.search content'.toList = p.search content.toList) →
          DetectSensitiveData (NewWebhookSecurityValidator lib config) content'
            = DetectSensitiveData (NewWebhookSecurityValidator lib config) content) := by
  have hD : ∀ x : String, DetectSensitiveData (NewWebhookSecurityValidator lib config) x =
      (((sensitivePatternList.enumFrom 0).filter (fun jp => jp.2.search x.toList)).map
        (fun jp => jp.1 + 1)).map patternLabel := by
    intro x
    simp only [DetectSensitiveData, NewWebhookSecurityValidator, detectFrom_eq, List.map_map]
    rfl
  have hmem : ∀ k, k ∈ ((sensitivePatternList.enumFrom 0).filter
        (fun jp => jp.2.search content.toList)).map (fun jp => jp.1 + 1) ↔
      1 ≤ k ∧ k ≤ 7 ∧ ∃ p, sensitivePatternList[k - 1]? = some p
        ∧ p.search content.toList = true := by
    intro k
    simp only [List.mem_map, List.mem_filter, Prod.exists]
    constructor
    · rintro ⟨j, p, ⟨hjp, hs⟩, rfl⟩
      have h2 := List.mk_mem_enumFrom_iff_le_and_getElem?_sub.mp hjp
      have hlt : j < sensitivePatternList.length := by
        have := h2.2
        rw [Nat.sub_zero] at this
        exact (List.getElem?_eq_some_iff.mp this).1
      have h7 : sensitivePatternList.length = 7 := rfl
      refine ⟨by omega, by omega, p, ?_, hs⟩
      simpa using h2.2
    · rintro ⟨h1, -, p, hp, hs⟩
      refine ⟨k - 1, p, ⟨?_, hs⟩, by omega⟩
      exact List.mk_mem_enumFrom_iff_le_and_getElem?_sub.mpr ⟨Nat.zero_le _, by simpa using hp⟩
  have hsorted : (((sensitivePatternList.enumFrom 0).filter
        (fun jp => jp.2.search content.toList)).map (fun jp => jp.1 + 1)).Pairwise (· < ·) := by
    have h1 : ((sensitivePatternList.enumFrom 0).map Prod.fst).Pairwise (· < ·) := by
      rw [List.enumFrom_map_fst]
      exact List.pairwise_lt_range' 0 _
    have h2 : (((sensitivePatternList.enumFrom 0).filter
        (fun jp => jp.2.search content.toList)).map Prod.fst).Pairwise (· < ·) :=
      List.Pairwise.sublist (List.Sublist.map _ (List.filter_sublist _)) h1
    rw [List.pairwise_map] at h2 ⊢
    exact h2.imp (fun h => by omega)
  refine ⟨_, hD content, hsorted, hmem, ?_, ?_⟩
  · rw [hD content]
    refine List.Nodup.map_on ?_ (hsorted.imp (fun h => Nat.ne_of_lt h))
    intro a ha b hb hab
    exact patternLabel_injOn a b ((hmem a).mp ha).2.1 ((hmem b).mp hb).2.1 hab
  · intro content' h
    rw [hD content', hD content]
    congr 2
    apply List.filter_congr
    rintro ⟨j, p⟩ hjp
    have hp := (List.mem_enumFrom hjp).2.2
    exact h p (hp ▸ List.getElem_mem _)


theorem handlePushEvent_effects (lib : Lib) (payload : List (String × Node)) (e : Effect)
    (he : e ∈ (handlePushEvent lib payload).1) : ∃ level message, e = .log level message := by
  unfold handlePushEvent at he
  simp only [List.mem_cons, List.mem_flatMap] at he
  rcases he with rfl | ⟨commit, -, hc⟩
  · exact ⟨_, _, rfl⟩
  · split at hc
    · split at hc
      · simp only [List.mem_singleton] at hc
        exact ⟨_, _, hc⟩
      · cases hc
    · cases hc

theorem processWebhookEvent_effects (lib : Lib) (eventType : String)
    (payload : List (String × Node)) (e : Effect)
    (he : e ∈ (processWebhookEvent lib eventType payload).1) :
    ∃ level message, e = .log level message := by
  unfold processWebhookEvent at he
  split at he
  · exact handlePushEvent_effects lib payload e he
  split at he
  · simp only [handlePullRequestEvent, List.mem_singleton] at he; exact ⟨_, _, he⟩
  split at he
  · simp only [handleSecretScanningEvent, List.mem_singleton] at he; exact ⟨_, _, he⟩
  split at he
  · simp only [handleCodeScanningEvent, List.mem_singleton] at he; exact ⟨_, _, he⟩
  split at he
  · simp only [handleDependabotEvent, List.mem_singleton] at he; exact ⟨_, _, he⟩
  · simp only [List.mem_singleton] at he; exact ⟨_, _, he⟩

theorem handlePushEvent_flags (lib : Lib) (payload : List (String × Node))
    (commits : List Node) (commit : List (String × Node))
    (hl : payload.lookup "commits" = some (.arr commits)) (hm : Node.obj commit ∈ commits)
    (hs : containsSensitiveData lib commit = true) :
    sensitiveCommitLog ∈ (handlePushEvent lib payload).1 := by
  unfold handlePushEvent
  simp only [hl, List.mem_cons, List.mem_flatMap]
  right
  exact ⟨.obj commit, hm, by simp [hs, sensitiveCommitLog]⟩

theorem admitted_scan_result (lib : Lib) (app : Application) (c : Request)
    (hpass : ∀ k : Check, k.fails lib app c = false) :
    ∃ rawBody payload, c.Body = .ok rawBody ∧ lib.jsonUnmarshal rawBody = .ok payload
      ∧ (webhookHandler lib app c).status = 200
      ∧ (webhookHandler lib app c).dispatched = true
      ∧ (webhookHandler lib app c).sensitiveFlag
          = some (decide ((DetectSensitiveData app.validator rawBody).length > 0))
      ∧ (sensitiveDataEvent ∈ (webhookHandler lib app c).effects ↔
          (DetectSensitiveData app.validator rawBody).length > 0)
      ∧ (c.GetHeader "X-Github-Event" = "push" → ∀ commits commit,
          (SanitizePayload payload).lookup "commits" = some (.arr commits) →
          Node.obj commit ∈ commits → containsSensitiveData lib commit = true →
          sensitiveCommitLog ∈ (webhookHandler lib app c).effects) := by
  obtain ⟨rawBody, payload, hb, hj, hm, hsz, hv, hs, hip⟩ := passed_of_no_failure lib app c hpass
  refine ⟨rawBody, payload, hb, hj, ?_⟩
  rw [handler_admitted lib app c rawBody payload hm hb hsz hv hs hip hj]
  refine ⟨rfl, by simp [Result.dispatched], rfl, ?_, ?_⟩
  · simp only [List.mem_append, List.mem_cons, List.mem_singleton, List.not_mem_nil, or_false]
    constructor
    · intro h
      by_contra hlen
      have hscan : scanTrace app rawBody = [.call .DetectSensitiveData] := by
        simp only [scanTrace, if_neg hlen]
      rw [hscan] at h
      rcases h with ((((h | h) | h) | h) | h) | h
      · unfold sigTrace at h; split at h <;> simp [sensitiveDataEvent] at h
      · simp [sensitiveDataEvent] at h
      · simp [sensitiveDataEvent] at h
      · simp [sensitiveDataEvent] at h
      · obtain ⟨l, m, hlm⟩ := processWebhookEvent_effects lib _ _ _ h
        simp [sensitiveDataEvent] at hlm
      · simp [sensitiveDataEvent] at h
    · intro hlen
      refine Or.inl (Or.inl (Or.inl (Or.inr ?_)))
      simp [scanTrace, if_pos hlen, sensitiveDataEvent]
  · intro hpush commits commit hl hmem hsens
    simp only [List.mem_append]
    refine Or.inl (Or.inr ?_)
    rw [hpush]
    have : processWebhookEvent lib "push" (SanitizePayload payload)
        = handlePushEvent lib (SanitizePayload payload) := by
      simp [processWebhookEvent]
    rw [this]
    exact handlePushEvent_flags lib _ commits commit hl hmem hsens


/-- C11 (amended): a push request that passes every check is admitted (status
200, dispatched).  The security event `sensitive_data_detected` is emitted,
and `metadata.sensitive_data_detected` is true, exactly when
`DetectSensitiveData` reports a pattern on the raw body; a commit of the
sanitized payload that `containsSensitiveData` flags is logged by
`handlePushEvent`. -/
theorem push_admitted_scan_decides_flag (lib : Lib) (app : Application) (c : Request)
    (hpass : ∀ k : Check, k.fails lib app c = false)
    (hpush : c.GetHeader "X-Github-Event" = "push") :
    ∃ rawBody payload, c.Body = .ok rawBody ∧ lib.jsonUnmarshal rawBody = .ok payload
      ∧ (webhookHandler lib app c).status = 200
      ∧ (webhookHandler lib app c).dispatched = true
      ∧ (webhookHandler lib app c).sensitiveFlag
          = some (decide ((DetectSensitiveData app.validator rawBody).length > 0))
      ∧ (sensitiveDataEvent ∈ (webhookHandler lib app c).effects ↔
          (DetectSensitiveData app.validator rawBody).length > 0)
      ∧ (∀ commits commit,
          (SanitizePayload payload).lookup "commits" = some (.arr commits) →
          Node.obj commit ∈ commits → containsSensitiveData lib commit = true →
          sensitiveCommitLog ∈ (webhookHandler lib app c).effects) := by
  obtain ⟨rawBody, payload, hb, hj, h1, h2, h3, h4, h5⟩ := admitted_scan_result lib app c hpass
  exact ⟨rawBody, payload, hb, hj, h1, h2, h3, h4, h5 hpush⟩

theorem pushRequest_passes (k : Check) :
    k.fails sampleLib (NewApplication sampleLib sampleConfig)
      (sampleRequest (sampleHeaders "push" pushSignature) pushBody githubAddress) = false := by
  cases k <;> decide

theorem sanitize_pushPayload :
    SanitizePayload
        [("repository", .obj [("full_name", .str "octo/repo")]),
         ("sender", .obj [("login", .str "octocat")]),
         ("commits", .arr [.obj [("id", .str "1"), ("message", .str "update password")]])]
      = [("repository", .obj [("full_name", .str "octo/repo")]),
         ("sender", .obj [("login", .str "octocat")]),
         ("commits", .arr [.obj [("id", .str "1"), ("message", .str "update password")]])] := by
  simp only [SanitizePayload, sanitizeArray]
  rw [show sanitizeString "octo/repo" = "octo/repo" by decide,
    show sanitizeString "octocat" = "octocat" by decide,
    show sanitizeString "1" = "1" by decide,
    show sanitizeString "update password" = "update password" by decide]

/-- C11 (counterexample): the signed push request whose commit message is
`update password` is admitted, but no pattern of the scanner matches its
body: the flag is false and no security event is emitted; only
`handlePushEvent` logs the commit. -/
theorem password_word_not_flagged :
    sampleLib.jsonUnmarshal pushBody
      = .ok [("repository", .obj [("full_name", .str "octo/repo")]),
         ("sender", .obj [("login", .str "octocat")]),
         ("commits", .arr [.obj [("id", .str "1"), ("message", .str "update password")]])]
    ∧ DetectSensitiveData (NewApplication sampleLib sampleConfig).validator pushBody = []
    ∧ (webhookHandler sampleLib (NewApplication sampleLib sampleConfig)
        (sampleRequest (sampleHeaders "push" pushSignature) pushBody githubAddress)).status = 200
    ∧ (webhookHandler sampleLib (NewApplication sampleLib sampleConfig)
        (sampleRequest (sampleHeaders "push" pushSignature) pushBody
          githubAddress)).sensitiveFlag = some false
    ∧ sensitiveDataEvent ∉ (webhookHandler sampleLib (NewApplication sampleLib sampleConfig)
        (sampleRequest (sampleHeaders "push" pushSignature) pushBody githubAddress)).effects
    ∧ sensitiveCommitLog ∈ (webhookHandler sampleLib (NewApplication sampleLib sampleConfig)
        (sampleRequest (sampleHeaders "push" pushSignature) pushBody githubAddress)).effects := by
  have hj : sampleLib.jsonUnmarshal pushBody
      = .ok [("repository", .obj [("full_name", .str "octo/repo")]),
         ("sender", .obj [("login", .str "octocat")]),
         ("commits", .arr [.obj [("id", .str "1"), ("message", .str "update password")]])] := by
    simp only [sampleLib]
    rw [if_neg (by decide), if_pos trivial]
  have hscan : DetectSensitiveData (NewApplication sampleLib sampleConfig).validator pushBody
      = [] := by decide
  obtain ⟨rawBody, payload, hb, hj', h1, -, h3, h4, h5⟩ :=
    admitted_scan_result sampleLib (NewApplication sampleLib sampleConfig)
      (sampleRequest (sampleHeaders "push" pushSignature) pushBody githubAddress)
      pushRequest_passes
  have hraw : rawBody = pushBody := by
    have : (Except.ok pushBody : Except String String) = .ok rawBody := hb
    cases this
    rfl
  subst hraw
  rw [hj] at hj'
  cases hj'
  rw [hscan] at h3 h4
  refine ⟨hj, hscan, h1, h3, fun h => absurd (h4.mp h) (by decide), ?_⟩
  refine h5 (by decide) _ [("id", .str "1"), ("message", .str "update password")] ?_
    (List.mem_singleton.mpr rfl) (by decide)
  rw [sanitize_pushPayload]
  rfl

/-- C11 (witness): a signed push request whose body holds a quoted password
assignment. -/
theorem push_admitted_scan_decides_flag_witness :
    (webhookHandler sampleLib (NewApplication sampleLib sampleConfig)
        (sampleRequest (sampleHeaders "push" noteSignature) noteBody githubAddress)).status = 200
    ∧ (webhookHandler sampleLib (NewApplication sampleLib sampleConfig)
        (sampleRequest (sampleHeaders "push" noteSignature) noteBody
          githubAddress)).sensitiveFlag = some true
    ∧ ∃ rawBody payload,
        (sampleRequest (sampleHeaders "push" noteSignature) noteBody githubAddress).Body
          = .ok rawBody
        ∧ sampleLib.jsonUnmarshal rawBody = .ok payload
        ∧ (sensitiveDataEvent ∈ (webhookHandler sampleLib (NewApplication sampleLib sampleConfig)
            (sampleRequest (sampleHeaders "push" noteSignature) noteBody
              githubAddress)).effects ↔
          (DetectSensitiveData (NewApplication sampleLib sampleConfig).validator rawBody).length
            > 0) := by
  obtain ⟨rawBody, payload, hb, hj, -, -, -, h4, -⟩ :=
    push_admitted_scan_decides_flag sampleLib (NewApplication sampleLib sampleConfig)
      (sampleRequest (sampleHeaders "push" noteSignature) noteBody githubAddress)
      (by intro k; cases k <;> decide) (by decide)
  exact ⟨by decide, by decide, rawBody, payload, hb, hj, h4⟩


/-! ## Commit keyword scan -/

theorem stringsContains_iff (s sub : String) :
    stringsContains s sub = true ↔ sub.toList <:+: s.toList := by
  simp [stringsContains]

theorem any_keyword_iff (text : String) (words : List String) :
    words.any (fun w => stringsContains text w) = true ↔
      ∃ w ∈ words, w.toList <:+: text.toList := by
  simp only [List.any_eq_true, stringsContains_iff]

theorem no_keyword_in_empty :
    sensitiveKeywords.any (fun w => stringsContains "" w) = false
    ∧ sensitiveFiles.any (fun w => stringsContains "" w) = false := by
  decide

theorem mem_interfaceSliceToStringSlice (input : List Node) (file : String) :
    file ∈ interfaceSliceToStringSlice input ↔
      Node.str file ∈ input ∨ (file = "" ∧ ∃ v ∈ input, ∀ s, v ≠ Node.str s) := by
  simp only [interfaceSliceToStringSlice, List.mem_map]
  constructor
  · rintro ⟨v, hv, rfl⟩
    cases v with
    | str s => exact Or.inl hv
    | obj m => exact Or.inr ⟨rfl, _, hv, fun s h => by cases h⟩
    | arr a => exact Or.inr ⟨rfl, _, hv, fun s h => by cases h⟩
    | other x => exact Or.inr ⟨rfl, _, hv, fun s h => by cases h⟩
  · rintro (h | ⟨rfl, v, hv, hns⟩)
    · exact ⟨_, h, rfl⟩
    · refine ⟨v, hv, ?_⟩
      cases v with
      | str s => exact absurd rfl (hns s)
      | obj m => rfl
      | arr a => rfl
      | other x => rfl

theorem ite_true_eq_or (b x : Bool) : (if b = true then true else x) = (b || x) := by
  cases b <;> rfl

theorem containsSensitiveData_eq (lib : Lib) (commit : List (String × Node)) :
    containsSensitiveData lib commit =
      (sensitiveKeywords.any (fun keyword =>
          stringsContains (lib.toLower (commitMessage commit)) keyword)
        || (interfaceSliceToStringSlice (commitList commit "added")
            ++ interfaceSliceToStringSlice (commitList commit "modified")).any (fun file =>
          sensitiveFiles.any (fun sensitive =>
            stringsContains (lib.toLower file) sensitive))) := by
  unfold containsSensitiveData
  exact ite_true_eq_or _ _

/-- C16: `containsSensitiveData` is true exactly when the lower-cased message
holds one of the keywords, or a file name of the `added` or `modified` list,
lower-cased, holds one of the file-name fragments; a commit without a string
message and without the two lists is not flagged.  `strings.ToLower` is taken
to map the empty string to itself. -/
theorem containsSensitiveData_iff (lib : Lib) (commit : List (String × Node))
    (hlower : lib.toLower "" = "") :
    (containsSensitiveData lib commit = true ↔
      (∃ keyword ∈ sensitiveKeywords,
          keyword.toList <:+: (lib.toLower (commitMessage commit)).toList)
      ∨ (∃ file, (Node.str file ∈ commitList commit "added"
            ∨ Node.str file ∈ commitList commit "modified")
          ∧ ∃ fragment ∈ sensitiveFiles, fragment.toList <:+: (lib.toLower file).toList))
    ∧ ((∀ m, commit.lookup "message" ≠ some (.str m))
        → (∀ a, commit.lookup "added" ≠ some (.arr a))
        → (∀ a, commit.lookup "modified" ≠ some (.arr a))
        → containsSensitiveData lib commit = false) := by
  have hfiles : ∀ file, (∃ fragment ∈ sensitiveFiles,
      fragment.toList <:+: (lib.toLower file).toList) → file ≠ "" := by
    rintro file h rfl
    rw [hlower, ← any_keyword_iff] at h
    rw [no_keyword_in_empty.2] at h
    cases h
  have hiff : containsSensitiveData lib commit = true ↔
      (∃ keyword ∈ sensitiveKeywords,
          keyword.toList <:+: (lib.toLower (commitMessage commit)).toList)
      ∨ (∃ file, (Node.str file ∈ commitList commit "added"
            ∨ Node.str file ∈ commitList commit "modified")
          ∧ ∃ fragment ∈ sensitiveFiles, fragment.toList <:+: (lib.toLower file).toList) := by
    rw [containsSensitiveData_eq, Bool.or_eq_true, any_keyword_iff, List.any_eq_true]
    apply or_congr Iff.rfl
    constructor
    · rintro ⟨file, hmem, hfrag⟩
      rw [any_keyword_iff] at hfrag
      refine ⟨file, ?_, hfrag⟩
      rcases List.mem_append.mp hmem with h | h
      · rcases (mem_interfaceSliceToStringSlice _ _).mp h with h | ⟨h0, -⟩
        · exact Or.inl h
        · exact absurd h0 (hfiles file hfrag)
      · rcases (mem_interfaceSliceToStringSlice _ _).mp h with h | ⟨h0, -⟩
        · exact Or.inr h
        · exact absurd h0 (hfiles file hfrag)
    · rintro ⟨file, hmem, hfrag⟩
      refine ⟨file, ?_, (any_keyword_iff _ _).mpr hfrag⟩
      rcases hmem with h | h
      · exact List.mem_append_left _ ((mem_interfaceSliceToStringSlice _ _).mpr (Or.inl h))
      · exact List.mem_append_right _ ((mem_interfaceSliceToStringSlice _ _).mpr (Or.inl h))
  refine ⟨hiff, ?_⟩
  intro hm ha hmo
  have h1 : commitMessage commit = "" := by
    unfold commitMessage
    split
    · rename_i m h; exact absurd h (hm m)
    · rfl
  have h2 : commitList commit "added" = [] := by
    unfold commitList
    split
    · rename_i a h; exact absurd h (ha a)
    · rfl
  have h3 : commitList commit "modified" = [] := by
    unfold commitList
    split
    · rename_i a h; exact absurd h (hmo a)
    · rfl
  rw [containsSensitiveData_eq, h1, h2, h3, hlower, no_keyword_in_empty.1]
  rfl

/-- C16 (witness): commits flagged by message, flagged by file name, and not
flagged. -/
theorem containsSensitiveData_iff_witness :
    sampleLib.toLower "" = ""
    ∧ containsSensitiveData sampleLib [("id", .str "1"), ("message", .str "Rotate API Token")]
        = true
    ∧ containsSensitiveData sampleLib [("id", .str "2"), ("modified", .arr [.str "config/.ENV"])]
        = true
    ∧ containsSensitiveData sampleLib [("id", .str "3"), ("message", .other (.number 7))]
        = false := by
  have h := containsSensitiveData_iff sampleLib
    [("id", .str "3"), ("message", .other (.number 7))] (by decide)
  exact ⟨by decide, by decide, by decide,
    h.2 (by intro m h; revert h; simp [List.lookup])
      (by intro m h; revert h; simp [List.lookup])
      (by intro m h; revert h; simp [List.lookup])⟩


end Webhook
